import Mathlib

/-!
Raspberry Pi Pico watering controller (`water.c`)

A shallow embedding of `water.c`.  The two global counters and the levels of
the two output pins form the state; every call that touches the outside world
(`gpio_put`, `sleep_ms`, `adc_read`, `printf`, the SDK set-up calls) appends
an event to a chronological trace carried in the state, so that timing and
actuation properties can be stated on the trace.

Conventions

* C `int` is modelled by `Int`; every arithmetic result is wrapped to 32-bit
  two's complement by `wrapInt` (what the Cortex-M0+ target computes), `%` and
  `/` are the truncating `Int.tmod` and `Int.tdiv`.
* The `#ifdef DEBUG` build switch is the Boolean parameter `DEBUG`; the
  source as shipped has `#define DEBUG`, i.e. `DEBUG = true`.
* The sensor is an oracle `adc : Nat → Nat`: the `k`-th call of `adc_read`
  returns `adc k` truncated to `uint16_t`.
* `while(true)` is unrolled for a given number of iterations.
* A `for (i = 0; i < n; i++)` loop runs its body `n.toNat` times.
-/

namespace Water

/-! ## Constants (`#define`s, lines 24-62) -/

def TARGET_MAX : Int := 2400
def DELAY : Int := 3600
def CHECK_PERIOD : Int := 24
def CHECK_MIN : Int := 1
def CHECK_MAX : Int := 5
def DEBUG_DELAY : Int := 10
def WARMING_DELAY : Int := 60
def WATERING_TIME : Int := 5
/-- The on-board LED, `PICO_DEFAULT_LED_PIN`; the header comment of `water.c`
gives its value: "LED: 25 (onboard, used for debugging without a serial line)". -/
def LED_PIN : Nat := 25
def RELAY_PIN : Nat := 0
def HUMIDITY_PIN : Nat := 28
def HUMIDITY_ADC : Nat := 2

/-- Reduction of an integer to the range of a 32-bit two's complement `int`. -/
def wrapInt (x : Int) : Int := (x + 2147483648) % 4294967296 - 2147483648

/-- Conversion of an `int` argument to the `uint32_t` parameter of `sleep_ms`. -/
def toU32 (x : Int) : Nat := (x % 4294967296).toNat

/-! ## Observable events -/

/-- The texts given to `printdbg`, with their integer arguments. -/
inductive Msg where
  | dryness (value : Nat)
  | already_watered
  | start_watering (dose : Int)
  | stop_watering
  | not_enough (doses : Int)
  | check (time count : Int)
deriving DecidableEq, Repr

/-- One interaction with the outside world.  `call_watering` is a ghost
marker recorded on entry to `watering`; it stands for the call itself and
corresponds to no hardware action. -/
inductive Event where
  | gpio_put (pin : Nat) (value : Bool)
  | sleep_ms (ms : Nat)
  | adc_read (value : Nat)
  | printf (msg : Msg)
  | call_watering (dose : Int)
  | stdio_init_all
  | gpio_init (pin : Nat)
  | gpio_set_dir (pin : Nat) (out : Bool)
  | adc_init
  | adc_gpio_init (pin : Nat)
  | adc_select_input (input : Nat)
deriving DecidableEq, Repr

/-- Program state: the globals `check_time` and `check_count`, the level
driven on the relay pin and on the LED pin, the number of ADC conversions
performed so far, and the trace of events in chronological order. -/
structure State where
  check_time : Int
  check_count : Int
  relay : Bool
  led : Bool
  reads : Nat
  trace : List Event
deriving DecidableEq, Repr

/-- State at process start: `int check_time = 0; int check_count = 0;`, both
output latches low (their reset value), nothing observed yet. -/
def initial : State :=
  { check_time := 0, check_count := 0, relay := false, led := false,
    reads := 0, trace := [] }

/-! ## External calls -/

def emit (e : Event) (s : State) : State :=
  { s with trace := s.trace ++ [e] }

def gpio_put (pin : Nat) (value : Bool) (s : State) : State :=
  let s := emit (Event.gpio_put pin value) s
  if pin = RELAY_PIN then { s with relay := value }
  else if pin = LED_PIN then { s with led := value }
  else s

def sleep_ms (ms : Int) (s : State) : State :=
  emit (Event.sleep_ms (toU32 ms)) s

def adc_read (adc : Nat → Nat) (s : State) : Nat × State :=
  let v := adc s.reads % 65536
  (v, emit (Event.adc_read v) { s with reads := s.reads + 1 })

/-- The macro `printdbg(...)`: `printf` when `DEBUG` is defined, nothing otherwise. -/
def printdbg (DEBUG : Bool) (m : Msg) (s : State) : State :=
  if DEBUG then emit (Event.printf m) s else s

/-! ## Functions of `water.c` -/

/-- Body of the `for` loop of `blink`, run `n` times. -/
def blink_loop : Nat → State → State
  | 0, s => s
  | n + 1, s =>
    let s := gpio_put LED_PIN true s
    let s := sleep_ms 250 s
    let s := gpio_put LED_PIN false s
    let s := sleep_ms 250 s
    blink_loop n s

def blink (loops : Int) (s : State) : State :=
  blink_loop loops.toNat s

def blink_sleep (sec : Int) (s : State) : State :=
  blink (wrapInt (2 * sec)) s

def read_sensor (DEBUG : Bool) (adc : Nat → Nat) (s : State) : Nat × State :=
  let r := adc_read adc s
  let dryness := r.1
  let s := printdbg DEBUG (Msg.dryness dryness) r.2
  (dryness, s)

/-- Body of the `for` loop of the `DEBUG` variant of `wait`, run `n` times. -/
def wait_loop (DEBUG : Bool) (adc : Nat → Nat) : Nat → State → State
  | 0, s => s
  | n + 1, s =>
    let s := (read_sensor DEBUG adc s).2
    let s := sleep_ms (wrapInt (1000 * DEBUG_DELAY)) s
    wait_loop DEBUG adc n s

/-- The function `wait(int delay)`; the parameter `delay` is not used by the body. -/
def wait (DEBUG : Bool) (adc : Nat → Nat) (_delay : Int) (s : State) : State :=
  if DEBUG then
    wait_loop DEBUG adc (Int.tdiv DELAY DEBUG_DELAY).toNat s
  else
    sleep_ms (wrapInt (1000 * DELAY)) s

def watering (DEBUG : Bool) (dose : Int) (s : State) : State :=
  let s := emit (Event.call_watering dose) s
  if s.check_count ≥ CHECK_MAX then
    printdbg DEBUG Msg.already_watered s
  else
    let s := printdbg DEBUG (Msg.start_watering dose) s
    let s := gpio_put RELAY_PIN true s
    let s := blink_sleep (wrapInt (WATERING_TIME * dose)) s
    let s := printdbg DEBUG Msg.stop_watering s
    let s := gpio_put RELAY_PIN false s
    let s := { s with check_count := wrapInt (s.check_count + 1) }
    gpio_put LED_PIN true s

def update_check (DEBUG : Bool) (s : State) : State :=
  let s := { s with check_time := Int.tmod (wrapInt (s.check_time + 1)) CHECK_PERIOD }
  let s :=
    if s.check_time = 0 then
      let s :=
        if s.check_count < CHECK_MIN then
          let s := printdbg DEBUG (Msg.not_enough (wrapInt (CHECK_MIN - s.check_count))) s
          watering DEBUG (wrapInt (CHECK_MIN - s.check_count)) s
        else s
      { s with check_count := 0 }
    else s
  printdbg DEBUG (Msg.check s.check_time s.check_count) s

/-- Lines 129-142 of `main`: everything before the `while(true)` loop. -/
def startup (DEBUG : Bool) (adc : Nat → Nat) (s : State) : State :=
  let s := emit Event.stdio_init_all s
  let s := emit (Event.gpio_init LED_PIN) s
  let s := emit (Event.gpio_set_dir LED_PIN true) s
  let s := blink 2 s
  let s := emit (Event.gpio_init RELAY_PIN) s
  let s := emit (Event.gpio_set_dir RELAY_PIN true) s
  let s := gpio_put RELAY_PIN false s
  let s := emit Event.adc_init s
  let s := emit (Event.adc_gpio_init HUMIDITY_PIN) s
  let s := emit (Event.adc_select_input HUMIDITY_ADC) s
  wait DEBUG adc WARMING_DELAY s

/-- The `if (dryness > TARGET_MAX) ... else ...` statement of the main loop. -/
def decision (DEBUG : Bool) (dryness : Nat) (s : State) : State :=
  if (dryness : Int) > TARGET_MAX then
    watering DEBUG 1 s
  else
    gpio_put LED_PIN false s

/-- One iteration of the `while(true)` loop of `main`. -/
def loop_body (DEBUG : Bool) (adc : Nat → Nat) (s : State) : State :=
  let r := read_sensor DEBUG adc s
  let s := decision DEBUG r.1 r.2
  let s := wait DEBUG adc DELAY s
  update_check DEBUG s

/-- The first `n` iterations of the `while(true)` loop. -/
def main_loop (DEBUG : Bool) (adc : Nat → Nat) : Nat → State → State
  | 0, s => s
  | n + 1, s => loop_body DEBUG adc (main_loop DEBUG adc n s)

/-- The program `main` observed after `n` iterations of its loop. -/
def main (DEBUG : Bool) (adc : Nat → Nat) (n : Nat) : State :=
  main_loop DEBUG adc n (startup DEBUG adc initial)

/-! ## Observations on traces -/

/-- Events appended to the trace between state `s` and a later state `t`. -/
def since (s t : State) : List Event := t.trace.drop s.trace.length

/-- Total time slept, in milliseconds. -/
def elapsed : List Event → Nat
  | [] => 0
  | Event.sleep_ms ms :: es => ms + elapsed es
  | _ :: es => elapsed es

/-- Number of times the relay is switched on: the doses delivered. -/
def doses (tr : List Event) : Nat := tr.count (Event.gpio_put RELAY_PIN true)

/-- Number of writes, of either level, to the relay pin. -/
def relayWrites (tr : List Event) : Nat :=
  tr.countP (fun e => e == Event.gpio_put RELAY_PIN true || e == Event.gpio_put RELAY_PIN false)

/-- The `if (dryness > TARGET_MAX) ... else ...` statement together with the
`wait(DELAY)` that follows it: lines 146-153, one loop iteration up to, and
not including, the call of `update_check`. -/
def sense_and_wait (DEBUG : Bool) (adc : Nat → Nat) (s : State) : State :=
  let r := read_sensor DEBUG adc s
  let s := decision DEBUG r.1 r.2
  wait DEBUG adc DELAY s

/-! ## Closed forms of the emitted traces -/

/-- Events of one `printdbg` call. -/
def dbg (DEBUG : Bool) (m : Msg) : List Event :=
  if DEBUG then [Event.printf m] else []

/-- Events of `n` rounds of the loop of `blink`. -/
def blinkTrace : Nat → List Event
  | 0 => []
  | n + 1 =>
    [Event.gpio_put LED_PIN true, Event.sleep_ms 250,
     Event.gpio_put LED_PIN false, Event.sleep_ms 250] ++ blinkTrace n

/-- Events of `n` rounds of the loop of the `DEBUG` variant of `wait`, the
first conversion being the `r`-th one. -/
def waitTrace (DEBUG : Bool) (adc : Nat → Nat) : Nat → Nat → List Event
  | _, 0 => []
  | r, n + 1 =>
    [Event.adc_read (adc r % 65536)] ++ dbg DEBUG (Msg.dryness (adc r % 65536))
      ++ [Event.sleep_ms 10000] ++ waitTrace DEBUG adc (r + 1) n

/-- Events of one call of `wait`, the first conversion being the `r`-th one. -/
def waitEvents (DEBUG : Bool) (adc : Nat → Nat) (r : Nat) : List Event :=
  if DEBUG then waitTrace DEBUG adc r 360 else [Event.sleep_ms 3600000]

/-- Events between the relay-on and the relay-off write of `watering(dose)`. -/
def holdTrace (DEBUG : Bool) (dose : Int) : List Event :=
  blinkTrace (wrapInt (2 * wrapInt (WATERING_TIME * dose))).toNat ++ dbg DEBUG Msg.stop_watering

/-- Events of one call `watering(dose)` entered with counter value `count`. -/
def wateringTrace (DEBUG : Bool) (dose count : Int) : List Event :=
  if count ≥ CHECK_MAX then
    Event.call_watering dose :: dbg DEBUG Msg.already_watered
  else
    Event.call_watering dose :: dbg DEBUG (Msg.start_watering dose)
      ++ [Event.gpio_put RELAY_PIN true] ++ holdTrace DEBUG dose
      ++ [Event.gpio_put RELAY_PIN false, Event.gpio_put LED_PIN true]

/-- Events of `startup`, run from a state that has performed `r` conversions. -/
def startupEvents (DEBUG : Bool) (adc : Nat → Nat) (r : Nat) : List Event :=
  [Event.stdio_init_all, Event.gpio_init LED_PIN, Event.gpio_set_dir LED_PIN true]
    ++ blinkTrace 2
    ++ [Event.gpio_init RELAY_PIN, Event.gpio_set_dir RELAY_PIN true,
        Event.gpio_put RELAY_PIN false, Event.adc_init, Event.adc_gpio_init HUMIDITY_PIN,
        Event.adc_select_input HUMIDITY_ADC]
    ++ waitEvents DEBUG adc r

/-- The events of a trace that are neither an ADC conversion nor a print:
what is left when the diagnostic observations are erased. -/
def nonDiagnostic (tr : List Event) : List Event :=
  tr.filter (fun e =>
    match e with
    | Event.adc_read _ => false
    | Event.printf _ => false
    | _ => true)

/-- Level of the relay pin after event `e`, given its level `lvl` before. -/
def relayStep (lvl : Bool) (e : Event) : Bool :=
  match e with
  | Event.gpio_put pin value => if pin = RELAY_PIN then value else lvl
  | _ => lvl

/-- Level of the relay pin after the events of `tr`, starting from `lvl`. -/
def relayAfter (lvl : Bool) (tr : List Event) : Bool := tr.foldl relayStep lvl

/-- The kinds of event that `watering` performs between its relay-on and its
relay-off write: pin writes, the 250 ms sleeps of `blink`, and the "stop
watering" message. -/
def duringHold (e : Event) : Bool :=
  match e with
  | Event.gpio_put _ _ => true
  | Event.sleep_ms ms => ms == 250
  | Event.printf Msg.stop_watering => true
  | _ => false

/-- Replays `tr` from relay level `lvl` and checks that every event met while
the relay is high is one of `duringHold`: no conversion, no sleep of `wait`,
no call of `watering`, no set-up call happens with the relay open. -/
def closedOutsideHold : Bool → List Event → Bool
  | _, [] => true
  | lvl, e :: es => (!lvl || duringHold e) && closedOutsideHold (relayStep lvl e) es

/-- The control events of a trace: pin writes and calls of `watering`, in
order.  Prints, conversions, sleeps and set-up calls are erased. -/
def control (tr : List Event) : List Event :=
  tr.filter (fun e =>
    match e with
    | Event.gpio_put _ _ => true
    | Event.call_watering _ => true
    | _ => false)

/-- The writes to the relay pin, in order. -/
def relaySeq (tr : List Event) : List Event :=
  tr.filter (fun e => e == Event.gpio_put RELAY_PIN true || e == Event.gpio_put RELAY_PIN false)

/-- What the two builds are compared on: both counters, both pin levels, the
control events so far and the time slept so far. -/
def obs (s : State) : Int × Int × Bool × Bool × List Event × Nat :=
  (s.check_time, s.check_count, s.relay, s.led, control s.trace, elapsed s.trace)

/-! ## Frame lemmas -/

theorem printdbg_eq (DEBUG : Bool) (m : Msg) (s : State) :
    printdbg DEBUG m s = { s with trace := s.trace ++ dbg DEBUG m } := by
  cases DEBUG <;> simp [printdbg, dbg, emit]

theorem blink_loop_eq (n : Nat) (s : State) :
    blink_loop n s =
      { s with led := if n = 0 then s.led else false, trace := s.trace ++ blinkTrace n } := by
  induction n generalizing s with
  | zero => simp [blink_loop, blinkTrace]
  | succ n ih =>
    simp [blink_loop, ih, gpio_put, sleep_ms, emit, LED_PIN, RELAY_PIN, blinkTrace, toU32]

theorem wait_loop_eq (DEBUG : Bool) (adc : Nat → Nat) (n : Nat) (s : State) :
    wait_loop DEBUG adc n s =
      { s with reads := s.reads + n, trace := s.trace ++ waitTrace DEBUG adc s.reads n } := by
  induction n generalizing s with
  | zero => simp [wait_loop, waitTrace]
  | succ n ih =>
    simp [wait_loop, ih, read_sensor, adc_read, printdbg_eq, sleep_ms, emit, waitTrace, toU32,
      wrapInt, DEBUG_DELAY]
    omega

theorem loop_body_eq (DEBUG : Bool) (adc : Nat → Nat) (s : State) :
    loop_body DEBUG adc s = update_check DEBUG (sense_and_wait DEBUG adc s) := rfl

theorem wait_eq (DEBUG : Bool) (adc : Nat → Nat) (delay : Int) (s : State) :
    wait DEBUG adc delay s =
      { s with reads := s.reads + (if DEBUG then 360 else 0),
               trace := s.trace ++ waitEvents DEBUG adc s.reads } := by
  cases DEBUG
  · simp [wait, waitEvents, sleep_ms, emit, toU32, wrapInt, DELAY]
  · have h : (Int.tdiv 3600 10).toNat = 360 := by decide
    simp [wait, waitEvents, wait_loop_eq, DELAY, DEBUG_DELAY, h]

theorem watering_eq (DEBUG : Bool) (dose : Int) (s : State) :
    watering DEBUG dose s =
      if s.check_count ≥ CHECK_MAX then
        { s with trace := s.trace ++ wateringTrace DEBUG dose s.check_count }
      else
        { s with check_count := wrapInt (s.check_count + 1), relay := false, led := true,
                 trace := s.trace ++ wateringTrace DEBUG dose s.check_count } := by
  by_cases h : s.check_count ≥ CHECK_MAX
  · simp [watering, wateringTrace, h, emit, printdbg_eq]
  · simp [watering, wateringTrace, holdTrace, h, emit, printdbg_eq, gpio_put, blink_sleep, blink,
      blink_loop_eq, RELAY_PIN, LED_PIN]

theorem read_sensor_eq (DEBUG : Bool) (adc : Nat → Nat) (s : State) :
    read_sensor DEBUG adc s =
      (adc s.reads % 65536,
       { s with reads := s.reads + 1,
                trace := s.trace ++ (Event.adc_read (adc s.reads % 65536)
                  :: dbg DEBUG (Msg.dryness (adc s.reads % 65536))) }) := by
  simp [read_sensor, adc_read, printdbg_eq, emit]

/-! ## Lemmas on trace observations -/

theorem since_append (s t : State) (X : List Event) (h : t.trace = s.trace ++ X) :
    since s t = X := by
  simp [since, h]

theorem elapsed_append (a b : List Event) : elapsed (a ++ b) = elapsed a + elapsed b := by
  induction a with
  | nil => simp [elapsed]
  | cons e a ih => cases e <;> simp [elapsed, ih]; omega

theorem doses_append (a b : List Event) : doses (a ++ b) = doses a + doses b := by
  simp [doses]

theorem elapsed_dbg (DEBUG : Bool) (m : Msg) : elapsed (dbg DEBUG m) = 0 := by
  cases DEBUG <;> simp [dbg, elapsed]

theorem doses_dbg (DEBUG : Bool) (m : Msg) : doses (dbg DEBUG m) = 0 := by
  cases DEBUG <;> simp [dbg, doses]

theorem elapsed_blinkTrace (n : Nat) : elapsed (blinkTrace n) = 500 * n := by
  induction n with
  | zero => simp [blinkTrace, elapsed]
  | succ n ih => simp [blinkTrace, elapsed, ih]; omega

theorem doses_blinkTrace (n : Nat) : doses (blinkTrace n) = 0 := by
  induction n with
  | zero => simp [blinkTrace, doses]
  | succ n ih =>
    simp only [blinkTrace, doses_append, ih]
    simp [doses, LED_PIN, RELAY_PIN]

theorem elapsed_waitTrace (DEBUG : Bool) (adc : Nat → Nat) (r n : Nat) :
    elapsed (waitTrace DEBUG adc r n) = 10000 * n := by
  induction n generalizing r with
  | zero => simp [waitTrace, elapsed]
  | succ n ih => simp [waitTrace, elapsed, elapsed_append, elapsed_dbg, ih]; omega

theorem doses_waitTrace (DEBUG : Bool) (adc : Nat → Nat) (r n : Nat) :
    doses (waitTrace DEBUG adc r n) = 0 := by
  induction n generalizing r with
  | zero => simp [waitTrace, doses]
  | succ n ih =>
    simp only [waitTrace, doses_append, ih, doses_dbg]
    simp [doses]

theorem elapsed_waitEvents (DEBUG : Bool) (adc : Nat → Nat) (r : Nat) :
    elapsed (waitEvents DEBUG adc r) = 3600000 := by
  cases DEBUG
  · simp [waitEvents, elapsed]
  · show elapsed (waitTrace true adc r 360) = 3600000
    rw [elapsed_waitTrace]

theorem doses_waitEvents (DEBUG : Bool) (adc : Nat → Nat) (r : Nat) :
    doses (waitEvents DEBUG adc r) = 0 := by
  cases DEBUG
  · simp [waitEvents, doses]
  · show doses (waitTrace true adc r 360) = 0
    rw [doses_waitTrace]

theorem doses_wateringTrace (DEBUG : Bool) (dose count : Int) :
    doses (wateringTrace DEBUG dose count) = if count ≥ CHECK_MAX then 0 else 1 := by
  by_cases h : count ≥ CHECK_MAX
  · have : doses [Event.call_watering dose] = 0 := by simp [doses]
    rw [wateringTrace, if_pos h, if_pos h, ← List.singleton_append, doses_append, doses_dbg, this]
  · rw [wateringTrace, if_neg h, if_neg h, ← List.singleton_append]
    simp only [doses_append, doses_dbg, holdTrace, doses_blinkTrace]
    simp [doses, LED_PIN, RELAY_PIN]

/-! ## Claims on `watering` -/

/-- C8: with `check_count >= CHECK_MAX`, `watering(dose)` changes neither
counter nor either output pin, performs no conversion, and emits nothing but
the call marker and, in the `DEBUG` build, the "already watered" message: no
pin is written and no time is slept. -/
theorem watering_refused (DEBUG : Bool) (dose : Int) (s : State)
    (h : s.check_count ≥ CHECK_MAX) :
    (watering DEBUG dose s).check_count = s.check_count ∧
    (watering DEBUG dose s).check_time = s.check_time ∧
    (watering DEBUG dose s).relay = s.relay ∧
    (watering DEBUG dose s).led = s.led ∧
    (watering DEBUG dose s).reads = s.reads ∧
    since s (watering DEBUG dose s)
      = Event.call_watering dose :: (if DEBUG then [Event.printf Msg.already_watered] else []) ∧
    (∀ pin value, Event.gpio_put pin value ∉ since s (watering DEBUG dose s)) ∧
    elapsed (since s (watering DEBUG dose s)) = 0 := by
  have hs : since s (watering DEBUG dose s)
      = Event.call_watering dose :: (if DEBUG then [Event.printf Msg.already_watered] else []) := by
    apply since_append
    rw [watering_eq, if_pos h]
    simp [wateringTrace, h, dbg]
  refine ⟨?_, ?_, ?_, ?_, ?_, hs, ?_, ?_⟩
  · rw [watering_eq, if_pos h]
  · rw [watering_eq, if_pos h]
  · rw [watering_eq, if_pos h]
  · rw [watering_eq, if_pos h]
  · rw [watering_eq, if_pos h]
  · intro pin value
    rw [hs]
    cases DEBUG <;> simp
  · rw [hs]
    cases DEBUG <;> simp [elapsed]

theorem watering_refused_witness :
    (5 : Int) ≥ CHECK_MAX ∧
    since { initial with check_count := 5 } (watering true 1 { initial with check_count := 5 })
      = [Event.call_watering 1, Event.printf Msg.already_watered] :=
  ⟨by decide,
   (watering_refused true 1 { initial with check_count := 5 } (by decide)).2.2.2.2.2.1⟩

theorem wrapInt_eq (x : Int) (h1 : -2147483648 ≤ x) (h2 : x < 2147483648) : wrapInt x = x := by
  unfold wrapInt
  omega

theorem relayWrites_append (a b : List Event) :
    relayWrites (a ++ b) = relayWrites a + relayWrites b := by
  simp [relayWrites]

theorem relayWrites_dbg (DEBUG : Bool) (m : Msg) : relayWrites (dbg DEBUG m) = 0 := by
  cases DEBUG <;> simp [dbg, relayWrites]

theorem relayWrites_blinkTrace (n : Nat) : relayWrites (blinkTrace n) = 0 := by
  induction n with
  | zero => simp [blinkTrace, relayWrites]
  | succ n ih =>
    simp only [blinkTrace, relayWrites_append, ih]
    simp [relayWrites, LED_PIN, RELAY_PIN]

theorem count_sleep_dbg (DEBUG : Bool) (m : Msg) (k : Nat) :
    (dbg DEBUG m).count (Event.sleep_ms k) = 0 := by
  cases DEBUG <;> simp [dbg]

theorem count_sleep_blinkTrace (n : Nat) :
    (blinkTrace n).count (Event.sleep_ms 250) = 2 * n := by
  induction n with
  | zero => simp [blinkTrace]
  | succ n ih =>
    simp only [blinkTrace, List.count_append, ih]
    simp [LED_PIN]
    omega

/-- C9 (counterexample): the non-refused call `watering(214748365)` holds
the relay open for no time at all: `2 * (5 * 214748365)` does not fit an
`int`, the loop bound of `blink` is negative and no sleep is performed
between the relay-on and the relay-off write. -/
theorem watering_hold_overflow :
    initial.check_count < CHECK_MAX ∧ (1 : Int) ≤ 214748365 ∧
    since initial (watering true 214748365 initial)
      = [Event.call_watering 214748365, Event.printf (Msg.start_watering 214748365),
         Event.gpio_put RELAY_PIN true, Event.printf Msg.stop_watering,
         Event.gpio_put RELAY_PIN false, Event.gpio_put LED_PIN true] ∧
    elapsed (since initial (watering true 214748365 initial)) = 0 := by
  decide

/-- C9 (amended): for every non-refused call `watering(dose)` with
`1 <= dose <= 214748364` (so that `2 * WATERING_TIME * dose` fits an `int`),
the events of the call are: some events without relay write or sleep, the
relay-on write, `2 * WATERING_TIME * dose` blink loops (two sleeps of 250 ms
each) followed by the `DEBUG` message, the relay-off write, and a final LED
write.  The sleeps between the two relay writes sum to
`1000 * WATERING_TIME * dose` ms. -/
theorem watering_hold_time (DEBUG : Bool) (dose : Int) (s : State)
    (hc : s.check_count < CHECK_MAX) (h1 : 1 ≤ dose) (h2 : dose ≤ 214748364) :
    ∃ pre mid post,
      since s (watering DEBUG dose s)
        = pre ++ [Event.gpio_put RELAY_PIN true] ++ mid
            ++ [Event.gpio_put RELAY_PIN false] ++ post ∧
      relayWrites pre = 0 ∧ relayWrites mid = 0 ∧ relayWrites post = 0 ∧
      elapsed pre = 0 ∧ elapsed post = 0 ∧
      mid = blinkTrace (2 * WATERING_TIME * dose).toNat ++ dbg DEBUG Msg.stop_watering ∧
      mid.count (Event.sleep_ms 250) = 2 * (2 * WATERING_TIME * dose).toNat ∧
      (elapsed mid : Int) = 1000 * WATERING_TIME * dose := by
  have hw : wrapInt (2 * wrapInt (WATERING_TIME * dose)) = 2 * WATERING_TIME * dose := by
    have e1 : wrapInt (WATERING_TIME * dose) = WATERING_TIME * dose := by
      apply wrapInt_eq <;> simp only [WATERING_TIME] <;> omega
    rw [e1]
    have e2 : 2 * (WATERING_TIME * dose) = 2 * WATERING_TIME * dose := by ring
    rw [e2]
    apply wrapInt_eq <;> simp only [WATERING_TIME] <;> omega
  have hn : ¬ s.check_count ≥ CHECK_MAX := not_le.mpr hc
  refine ⟨Event.call_watering dose :: dbg DEBUG (Msg.start_watering dose),
    blinkTrace (2 * WATERING_TIME * dose).toNat ++ dbg DEBUG Msg.stop_watering,
    [Event.gpio_put LED_PIN true], ?_, ?_, ?_, ?_, ?_, ?_, rfl, ?_, ?_⟩
  · apply since_append
    rw [watering_eq, if_neg hn]
    simp [wateringTrace, hn, holdTrace, hw]
  · rw [← List.singleton_append, relayWrites_append, relayWrites_dbg]
    simp [relayWrites]
  · rw [relayWrites_append, relayWrites_dbg, relayWrites_blinkTrace]
  · simp [relayWrites, LED_PIN, RELAY_PIN]
  · rw [← List.singleton_append, elapsed_append, elapsed_dbg]
    simp [elapsed]
  · simp [elapsed]
  · rw [List.count_append, count_sleep_dbg, count_sleep_blinkTrace]
    omega
  · rw [elapsed_append, elapsed_dbg, elapsed_blinkTrace]
    simp only [WATERING_TIME] at *
    omega

theorem watering_hold_time_witness :
    initial.check_count < CHECK_MAX ∧ (1 : Int) ≤ 1 ∧ (1 : Int) ≤ 214748364 ∧
    ∃ pre mid post,
      since initial (watering true 1 initial)
        = pre ++ [Event.gpio_put RELAY_PIN true] ++ mid
            ++ [Event.gpio_put RELAY_PIN false] ++ post ∧
      relayWrites pre = 0 ∧ relayWrites mid = 0 ∧ relayWrites post = 0 ∧
      elapsed pre = 0 ∧ elapsed post = 0 ∧
      mid = blinkTrace (2 * WATERING_TIME * 1).toNat ++ dbg true Msg.stop_watering ∧
      mid.count (Event.sleep_ms 250) = 2 * (2 * WATERING_TIME * 1).toNat ∧
      (elapsed mid : Int) = 1000 * WATERING_TIME * 1 :=
  ⟨by decide, by decide, by decide,
   watering_hold_time true 1 initial (by decide) (by decide) (by decide)⟩

theorem startup_eq (DEBUG : Bool) (adc : Nat → Nat) (s : State) :
    startup DEBUG adc s =
      { s with relay := false, led := false,
               reads := s.reads + (if DEBUG then 360 else 0),
               trace := s.trace ++ startupEvents DEBUG adc s.reads } := by
  simp [startup, startupEvents, emit, blink, blink_loop_eq, gpio_put, wait_eq, RELAY_PIN, LED_PIN]

/-- C10: the call `wait(WARMING_DELAY)` sleeps `1000 * DELAY = 3600000` ms
in both builds, not `1000 * WARMING_DELAY = 60000` ms: `wait` does not use its
argument.  From process start to the first sensor decision `main` sleeps
3601000 ms (the two blink loops of 500 ms, then the wait). -/
theorem wait_warming_elapsed (DEBUG : Bool) (adc : Nat → Nat) (s : State) :
    wait DEBUG adc WARMING_DELAY s = wait DEBUG adc DELAY s ∧
    elapsed (since s (wait DEBUG adc WARMING_DELAY s)) = 3600000 ∧
    (elapsed (since s (wait DEBUG adc WARMING_DELAY s)) : Int) ≠ 1000 * WARMING_DELAY ∧
    elapsed (main DEBUG adc 0).trace = 3601000 := by
  have h : elapsed (since s (wait DEBUG adc WARMING_DELAY s)) = 3600000 := by
    rw [since_append s _ (waitEvents DEBUG adc s.reads) (by rw [wait_eq])]
    exact elapsed_waitEvents DEBUG adc s.reads
  refine ⟨rfl, h, ?_, ?_⟩
  · rw [h]
    decide
  · rw [main, main_loop, startup_eq]
    simp only [initial, List.nil_append, startupEvents, elapsed_append, elapsed_waitEvents,
      elapsed_blinkTrace]
    simp [elapsed]

/-- C4: the decision step calls `watering` if and only if the reading is
greater than `TARGET_MAX`, and then with dose 1; a reading equal to
`TARGET_MAX = 2400` yields no call.  In the loop body the reading passed to
the decision step is the ADC value just read, a 16-bit unsigned value. -/
theorem decision_threshold (DEBUG : Bool) (adc : Nat → Nat) (d : Nat) (s : State) :
    (Event.call_watering 1 ∈ since s (decision DEBUG d s) ↔ (d : Int) > TARGET_MAX) ∧
    (∀ dose, Event.call_watering dose ∈ since s (decision DEBUG d s) → dose = 1) ∧
    (∀ dose, Event.call_watering dose ∉ since s (decision DEBUG 2400 s)) ∧
    (read_sensor DEBUG adc s).1 < 65536 ∧
    loop_body DEBUG adc s
      = update_check DEBUG (wait DEBUG adc DELAY
          (decision DEBUG (read_sensor DEBUG adc s).1 (read_sensor DEBUG adc s).2)) := by
  have hyes : ∀ x : Nat, (x : Int) > TARGET_MAX →
      since s (decision DEBUG x s) = wateringTrace DEBUG 1 s.check_count := by
    intro x hx
    apply since_append
    rw [decision, if_pos hx, watering_eq]
    split <;> rfl
  have hno : ∀ x : Nat, ¬ (x : Int) > TARGET_MAX →
      since s (decision DEBUG x s) = [Event.gpio_put LED_PIN false] := by
    intro x hx
    apply since_append
    rw [decision, if_neg hx]
    simp [gpio_put, emit, LED_PIN, RELAY_PIN]
  have hmem : ∀ dose, Event.call_watering dose ∈ wateringTrace DEBUG 1 s.check_count ↔ dose = 1 := by
    intro dose
    have hb : ∀ n, Event.call_watering dose ∉ blinkTrace n := by
      intro n
      induction n with
      | zero => simp [blinkTrace]
      | succ n ih => simp [blinkTrace, ih]
    unfold wateringTrace holdTrace
    split <;> cases DEBUG <;> simp [dbg, hb, eq_comm]
  refine ⟨?_, ?_, ?_, ?_, rfl⟩
  · by_cases hd : (d : Int) > TARGET_MAX
    · rw [hyes d hd, hmem]
      simp [hd]
    · rw [hno d hd]
      simp [hd]
  · intro dose
    by_cases hd : (d : Int) > TARGET_MAX
    · rw [hyes d hd, hmem]
      exact id
    · rw [hno d hd]
      simp
  · intro dose
    rw [hno 2400 (by decide)]
    simp
  · rw [read_sensor_eq]
    exact Nat.mod_lt _ (by decide)

/-! ## Claims on `update_check` -/

theorem call_not_mem_blinkTrace (dose : Int) (n : Nat) :
    Event.call_watering dose ∉ blinkTrace n := by
  induction n with
  | zero => simp [blinkTrace]
  | succ n ih => simp [blinkTrace, ih]

theorem call_mem_wateringTrace (DEBUG : Bool) (d dose count : Int) :
    Event.call_watering d ∈ wateringTrace DEBUG dose count ↔ d = dose := by
  unfold wateringTrace holdTrace
  split <;> cases DEBUG <;> simp [dbg, call_not_mem_blinkTrace]

theorem call_not_mem_dbg (DEBUG : Bool) (d : Int) (m : Msg) :
    Event.call_watering d ∉ dbg DEBUG m := by
  cases DEBUG <;> simp [dbg]

theorem update_check_check_time (DEBUG : Bool) (s : State) :
    (update_check DEBUG s).check_time = Int.tmod (wrapInt (s.check_time + 1)) CHECK_PERIOD := by
  unfold update_check
  simp only [printdbg_eq, watering_eq]
  split <;> try rfl
  split <;> try rfl
  split <;> rfl

/-- Events of `update_check` when the window position does not wrap. -/
theorem update_check_nowrap (DEBUG : Bool) (s : State)
    (h : Int.tmod (wrapInt (s.check_time + 1)) CHECK_PERIOD ≠ 0) :
    update_check DEBUG s =
      { s with check_time := Int.tmod (wrapInt (s.check_time + 1)) CHECK_PERIOD,
               trace := s.trace ++ dbg DEBUG
                 (Msg.check (Int.tmod (wrapInt (s.check_time + 1)) CHECK_PERIOD) s.check_count) } := by
  unfold update_check
  simp [printdbg_eq, h]

/-- Events of `update_check` at a window end with enough doses delivered. -/
theorem update_check_wrap_enough (DEBUG : Bool) (s : State)
    (h : Int.tmod (wrapInt (s.check_time + 1)) CHECK_PERIOD = 0)
    (hc : ¬ s.check_count < CHECK_MIN) :
    update_check DEBUG s =
      { s with check_time := 0, check_count := 0,
               trace := s.trace ++ dbg DEBUG (Msg.check 0 0) } := by
  unfold update_check
  simp [printdbg_eq, h, hc]

/-- Events of `update_check` at a window end with too few doses delivered. -/
theorem update_check_wrap_short (DEBUG : Bool) (s : State)
    (h : Int.tmod (wrapInt (s.check_time + 1)) CHECK_PERIOD = 0)
    (hc : s.check_count < CHECK_MIN) :
    update_check DEBUG s =
      { s with check_time := 0, check_count := 0, relay := false, led := true,
               trace := s.trace ++ (dbg DEBUG (Msg.not_enough (wrapInt (CHECK_MIN - s.check_count)))
                 ++ wateringTrace DEBUG (wrapInt (CHECK_MIN - s.check_count)) s.check_count
                 ++ dbg DEBUG (Msg.check 0 0)) } := by
  have h5 : ¬ s.check_count ≥ CHECK_MAX := by
    simp only [CHECK_MIN, CHECK_MAX] at *
    omega
  unfold update_check
  simp [printdbg_eq, watering_eq, h, hc, h5]

/-- C5: at a call of `update_check` that wraps `check_time` to 0, `watering`
is called if and only if `check_count < CHECK_MIN`, at most once, and the
dose passed is `CHECK_MIN - check_count` for the value `check_count` had on
entry (the counter is a C `int`; `-2147483646 <= check_count` says that this
difference is itself an `int`). -/
theorem update_check_forced_request (DEBUG : Bool) (s : State)
    (hwrap : (update_check DEBUG s).check_time = 0)
    (hrange : -2147483646 ≤ s.check_count) :
    ((∃ dose, Event.call_watering dose ∈ since s (update_check DEBUG s))
        ↔ s.check_count < CHECK_MIN) ∧
    (∀ dose, Event.call_watering dose ∈ since s (update_check DEBUG s)
        → dose = CHECK_MIN - s.check_count) ∧
    (s.check_count < CHECK_MIN →
      (since s (update_check DEBUG s)).count (Event.call_watering (CHECK_MIN - s.check_count)) = 1) := by
  rw [update_check_check_time] at hwrap
  by_cases hc : s.check_count < CHECK_MIN
  · have hw : wrapInt (CHECK_MIN - s.check_count) = CHECK_MIN - s.check_count := by
      apply wrapInt_eq <;> simp only [CHECK_MIN] at * <;> omega
    have hs := since_append s _ _
      (show (update_check DEBUG s).trace = s.trace ++ _ by rw [update_check_wrap_short DEBUG s hwrap hc])
    rw [hs, hw]
    have hmem : ∀ dose, Event.call_watering dose ∈
        dbg DEBUG (Msg.not_enough (CHECK_MIN - s.check_count))
          ++ wateringTrace DEBUG (CHECK_MIN - s.check_count) s.check_count
          ++ dbg DEBUG (Msg.check 0 0) ↔ dose = CHECK_MIN - s.check_count := by
      intro dose
      simp [call_not_mem_dbg, call_mem_wateringTrace]
    refine ⟨?_, ?_, ?_⟩
    · simp only [hmem, hc, iff_true]
      exact ⟨_, rfl⟩
    · intro dose hd
      exact (hmem dose).mp hd
    · intro _
      have h5 : ¬ s.check_count ≥ CHECK_MAX := by
        simp only [CHECK_MIN, CHECK_MAX] at *
        omega
      have hb : ∀ n, (blinkTrace n).count (Event.call_watering (CHECK_MIN - s.check_count)) = 0 := by
        intro n
        exact List.count_eq_zero.mpr (call_not_mem_blinkTrace _ n)
      unfold wateringTrace holdTrace
      rw [if_neg h5]
      cases DEBUG <;> simp [dbg, hb]
  · have hs := since_append s _ _
      (show (update_check DEBUG s).trace = s.trace ++ _ by rw [update_check_wrap_enough DEBUG s hwrap hc])
    rw [hs]
    simp [call_not_mem_dbg, hc]

theorem update_check_forced_request_witness :
    (update_check true { initial with check_time := 23 }).check_time = 0 ∧
    (since { initial with check_time := 23 }
        (update_check true { initial with check_time := 23 })).count
      (Event.call_watering (CHECK_MIN - 0)) = 1 :=
  ⟨by decide,
   (update_check_forced_request true { initial with check_time := 23 } (by decide)
      (by decide)).2.2 (by decide)⟩

/-- C6: after a call of `update_check` that wraps `check_time` to 0,
`check_count` is 0, whatever its value was on entry. -/
theorem update_check_resets (DEBUG : Bool) (s : State)
    (hwrap : (update_check DEBUG s).check_time = 0) :
    (update_check DEBUG s).check_count = 0 := by
  rw [update_check_check_time] at hwrap
  by_cases hc : s.check_count < CHECK_MIN
  · rw [update_check_wrap_short DEBUG s hwrap hc]
  · rw [update_check_wrap_enough DEBUG s hwrap hc]

theorem update_check_resets_witness :
    (update_check true { initial with check_time := 23, check_count := 7 }).check_time = 0 ∧
    (update_check true { initial with check_time := 23, check_count := 7 }).check_count = 0 :=
  ⟨by decide,
   update_check_resets true { initial with check_time := 23, check_count := 7 } (by decide)⟩

/-! ## The main loop -/

theorem main_succ (DEBUG : Bool) (adc : Nat → Nat) (n : Nat) :
    main DEBUG adc (n + 1) = update_check DEBUG (sense_and_wait DEBUG adc (main DEBUG adc n)) :=
  rfl

theorem update_check_step (DEBUG : Bool) (s : State)
    (h0 : 0 ≤ s.check_time) (h1 : s.check_time < CHECK_PERIOD) :
    (update_check DEBUG s).check_time = (s.check_time + 1) % CHECK_PERIOD := by
  rw [update_check_check_time, wrapInt_eq]
  · exact Int.tmod_eq_emod (by omega) (by decide)
  · omega
  · simp only [CHECK_PERIOD] at h1
    omega

/-- Effect of the decision and the wait of one loop iteration: the window
position is kept, and either no dose is delivered and the counter is kept, or
the counter was below `CHECK_MAX`, one dose is delivered and the counter is
incremented. -/
theorem sense_and_wait_spec (DEBUG : Bool) (adc : Nat → Nat) (s : State) :
    (sense_and_wait DEBUG adc s).check_time = s.check_time ∧
    ∃ X, (sense_and_wait DEBUG adc s).trace = s.trace ++ X ∧
      (((sense_and_wait DEBUG adc s).check_count = s.check_count ∧ doses X = 0 ∧
          (sense_and_wait DEBUG adc s).relay = s.relay) ∨
       (s.check_count < CHECK_MAX ∧
          (sense_and_wait DEBUG adc s).check_count = wrapInt (s.check_count + 1) ∧
          doses X = 1 ∧ (sense_and_wait DEBUG adc s).relay = false)) := by
  unfold sense_and_wait decision
  rw [read_sensor_eq]
  simp only []
  by_cases hd : ((adc s.reads % 65536 : Nat) : Int) > TARGET_MAX
  · rw [if_pos hd, watering_eq, wait_eq]
    by_cases hc : s.check_count ≥ CHECK_MAX
    · rw [if_pos hc]
      refine ⟨rfl, _, (List.append_assoc _ _ _).trans (List.append_assoc _ _ _), Or.inl ⟨rfl, ?_, rfl⟩⟩
      rw [doses_append, doses_append, doses_wateringTrace, if_pos hc, doses_waitEvents,
        ← List.singleton_append, doses_append, doses_dbg]
      simp [doses]
    · rw [if_neg hc]
      refine ⟨rfl, _, (List.append_assoc _ _ _).trans (List.append_assoc _ _ _),
        Or.inr ⟨not_le.mp hc, rfl, ?_, rfl⟩⟩
      rw [doses_append, doses_append, doses_wateringTrace, if_neg hc, doses_waitEvents,
        ← List.singleton_append, doses_append, doses_dbg]
      simp [doses]
  · rw [if_neg hd, wait_eq]
    refine ⟨?_, (Event.adc_read (adc s.reads % 65536)
        :: dbg DEBUG (Msg.dryness (adc s.reads % 65536)))
        ++ [Event.gpio_put LED_PIN false] ++ waitEvents DEBUG adc (s.reads + 1), ?_, Or.inl ⟨?_, ?_, ?_⟩⟩
    · simp [gpio_put, emit, LED_PIN, RELAY_PIN]
    · simp [gpio_put, emit, LED_PIN, RELAY_PIN]
    · simp [gpio_put, emit, LED_PIN, RELAY_PIN]
    · rw [doses_append, doses_append, doses_waitEvents, ← List.singleton_append, doses_append,
        doses_dbg]
      simp [doses, LED_PIN, RELAY_PIN]
    · simp [gpio_put, emit, LED_PIN, RELAY_PIN]

/-- Invariant of the main loop after `n` iterations: the window position is
`n mod 24`, the counter is between 0 and `CHECK_MAX`, the relay is closed, and
the counter equals the number of doses delivered since the start of the
current window. -/
theorem main_inv (DEBUG : Bool) (adc : Nat → Nat) (n : Nat) :
    (main DEBUG adc n).check_time = ((n % 24 : Nat) : Int) ∧
    0 ≤ (main DEBUG adc n).check_count ∧ (main DEBUG adc n).check_count ≤ CHECK_MAX ∧
    (main DEBUG adc n).relay = false ∧
    ∃ X, (main DEBUG adc n).trace = (main DEBUG adc (24 * (n / 24))).trace ++ X ∧
      (doses X : Int) = (main DEBUG adc n).check_count := by
  induction n with
  | zero =>
    refine ⟨?_, ?_, ?_, ?_, [], ?_, ?_⟩ <;>
      simp [main, main_loop, startup_eq, initial, doses, CHECK_MAX]
  | succ n ih =>
    obtain ⟨hct, hc0, hc5, hrel, X, hX, hdX⟩ := ih
    obtain ⟨ht, Y, hY, hcase⟩ := sense_and_wait_spec DEBUG adc (main DEBUG adc n)
    rw [main_succ]
    generalize hu : sense_and_wait DEBUG adc (main DEBUG adc n) = u at ht hY hcase
    generalize hs : main DEBUG adc n = s at *
    simp only [CHECK_MAX] at hc5 hcase ⊢
    -- facts on the state `u` reached before `update_check`
    have hu0 : 0 ≤ u.check_count ∧ u.check_count ≤ 5 ∧ u.relay = false ∧
        (doses (X ++ Y) : Int) = u.check_count := by
      rw [doses_append]
      rcases hcase with ⟨h1, h2, h3⟩ | ⟨h1, h2, h3, h4⟩
      · rw [h1, h2, h3]
        exact ⟨hc0, hc5, hrel, by simpa using hdX⟩
      · have hw : wrapInt (s.check_count + 1) = s.check_count + 1 := by
          apply wrapInt_eq <;> omega
        rw [h2, hw, h3]
        refine ⟨by omega, by omega, h4, ?_⟩
        push_cast
        omega
    obtain ⟨hu0, hu5, hurel, hudoses⟩ := hu0
    have huct : u.check_time = ((n % 24 : Nat) : Int) := by rw [ht, hct]
    have hlt : n % 24 < 24 := Nat.mod_lt _ (by decide)
    have hstep : Int.tmod (wrapInt (u.check_time + 1)) CHECK_PERIOD
        = (u.check_time + 1) % CHECK_PERIOD := by
      rw [← update_check_check_time DEBUG u]
      apply update_check_step
      · omega
      · simp only [CHECK_PERIOD]
        omega
    by_cases hwrap : n % 24 = 23
    · have hz : Int.tmod (wrapInt (u.check_time + 1)) CHECK_PERIOD = 0 := by
        rw [hstep, huct, hwrap]
        decide
      have hn1 : (n + 1) % 24 = 0 := by omega
      have hbase : 24 * ((n + 1) / 24) = n + 1 := by omega
      rw [hn1, hbase, main_succ, hs, hu]
      by_cases hc : u.check_count < CHECK_MIN
      · rw [update_check_wrap_short DEBUG u hz hc]
        exact ⟨rfl, le_refl _, (by show (0 : Int) ≤ 5; decide), rfl, [], by simp, by simp [doses]⟩
      · rw [update_check_wrap_enough DEBUG u hz hc]
        exact ⟨rfl, le_refl _, (by show (0 : Int) ≤ 5; decide), hurel, [], by simp, by simp [doses]⟩
    · have hnz : Int.tmod (wrapInt (u.check_time + 1)) CHECK_PERIOD ≠ 0 := by
        rw [hstep, huct]
        simp only [CHECK_PERIOD]
        omega
      have hn1 : (n + 1) % 24 = n % 24 + 1 := by omega
      have hbase : (n + 1) / 24 = n / 24 := by omega
      rw [hn1, hbase, update_check_nowrap DEBUG u hnz]
      refine ⟨?_, hu0, hu5, hurel, X ++ Y ++ dbg DEBUG
        (Msg.check (Int.tmod (wrapInt (u.check_time + 1)) CHECK_PERIOD) u.check_count), ?_, ?_⟩
      · show Int.tmod (wrapInt (u.check_time + 1)) CHECK_PERIOD = _
        rw [hstep, huct]
        simp only [CHECK_PERIOD]
        push_cast
        omega
      · show u.trace ++ _ = _
        rw [hY, hX]
        simp
      · rw [doses_append, doses_dbg]
        simpa using hudoses

theorem iterate_update_check_time (DEBUG : Bool) (k : Nat) (s : State)
    (h0 : 0 ≤ s.check_time) (h1 : s.check_time < CHECK_PERIOD) :
    ((update_check DEBUG)^[k] s).check_time = (s.check_time + k) % CHECK_PERIOD := by
  induction k with
  | zero =>
    simp only [CHECK_PERIOD] at *
    simp only [Function.iterate_zero, id_eq]
    omega
  | succ k ih =>
    rw [Function.iterate_succ_apply', update_check_step, ih]
    · simp only [CHECK_PERIOD]
      push_cast
      omega
    · rw [ih]
      simp only [CHECK_PERIOD]
      omega
    · rw [ih]
      simp only [CHECK_PERIOD]
      omega

/-- C7: in a state with `check_time` in `[0, CHECK_PERIOD)`, one call of
`update_check` sets `check_time` to `(check_time + 1) mod CHECK_PERIOD`; `k`
calls add `k` modulo `CHECK_PERIOD`, the value comes back to where it started
exactly when `k` is a multiple of 24, and started from 0 the first 24 values are
`0, 1, ..., 23` in this order.  In `main`, after `n` loop iterations
`check_time` is `n mod 24`: it advances by one per iteration and stays in
`[0, CHECK_PERIOD)`. -/
theorem check_time_periodic (DEBUG : Bool) (adc : Nat → Nat) (s : State) (n k : Nat)
    (h0 : 0 ≤ s.check_time) (h1 : s.check_time < CHECK_PERIOD) :
    (update_check DEBUG s).check_time = (s.check_time + 1) % CHECK_PERIOD ∧
    ((update_check DEBUG)^[k] s).check_time = (s.check_time + k) % CHECK_PERIOD ∧
    (((update_check DEBUG)^[k] s).check_time = s.check_time ↔ 24 ∣ k) ∧
    (0 ≤ ((update_check DEBUG)^[k] s).check_time ∧
      ((update_check DEBUG)^[k] s).check_time < CHECK_PERIOD) ∧
    (List.range 24).map (fun j => ((update_check DEBUG)^[j] { s with check_time := 0 }).check_time)
      = (List.range 24).map Int.ofNat ∧
    ((update_check DEBUG)^[24] { s with check_time := 0 }).check_time = 0 ∧
    (main DEBUG adc n).check_time = ((n % 24 : Nat) : Int) ∧
    (main DEBUG adc (n + 1)).check_time = ((main DEBUG adc n).check_time + 1) % CHECK_PERIOD ∧
    (0 ≤ (main DEBUG adc n).check_time ∧ (main DEBUG adc n).check_time < CHECK_PERIOD) := by
  have hk := iterate_update_check_time DEBUG k s h0 h1
  have hz : ∀ j, ((update_check DEBUG)^[j] { s with check_time := 0 }).check_time
      = ((0 : Int) + j) % CHECK_PERIOD := fun j =>
    iterate_update_check_time DEBUG j { s with check_time := 0 } (le_refl _)
      (by show (0 : Int) < CHECK_PERIOD; decide)
  have hn := (main_inv DEBUG adc n).1
  have hn1 := (main_inv DEBUG adc (n + 1)).1
  refine ⟨update_check_step DEBUG s h0 h1, hk, ?_, ?_, ?_, ?_, hn, ?_, ?_⟩
  · rw [hk]
    simp only [CHECK_PERIOD] at *
    omega
  · rw [hk]
    simp only [CHECK_PERIOD] at *
    omega
  · apply List.map_congr_left
    intro j hj
    rw [hz]
    have := List.mem_range.mp hj
    simp only [CHECK_PERIOD, Int.ofNat_eq_coe]
    omega
  · rw [hz]
    decide
  · rw [hn1, hn]
    simp only [CHECK_PERIOD]
    omega
  · rw [hn]
    simp only [CHECK_PERIOD]
    omega

theorem check_time_periodic_witness :
    (0 ≤ initial.check_time ∧ initial.check_time < CHECK_PERIOD) ∧
    ((update_check true)^[24] initial).check_time = 0 ∧
    (main true (fun _ => 0) 30).check_time = 6 :=
  ⟨⟨by decide, by decide⟩,
   (check_time_periodic true (fun _ => 0) initial 30 24 (by decide) (by decide)).2.2.2.2.2.1,
   (check_time_periodic true (fun _ => 0) initial 30 24 (by decide) (by decide)).2.2.2.2.2.2.1⟩

/-- The state reached before `update_check` in loop iteration `n + 1`
satisfies the same bounds as `main_inv`, with the doses counted from the
start of the window that contains iteration `n`. -/
theorem before_check_inv (DEBUG : Bool) (adc : Nat → Nat) (n : Nat) :
    (sense_and_wait DEBUG adc (main DEBUG adc n)).check_time = ((n % 24 : Nat) : Int) ∧
    0 ≤ (sense_and_wait DEBUG adc (main DEBUG adc n)).check_count ∧
    (sense_and_wait DEBUG adc (main DEBUG adc n)).check_count ≤ CHECK_MAX ∧
    (sense_and_wait DEBUG adc (main DEBUG adc n)).relay = false ∧
    ∃ X, (sense_and_wait DEBUG adc (main DEBUG adc n)).trace
        = (main DEBUG adc (24 * (n / 24))).trace ++ X ∧
      (doses X : Int) = (sense_and_wait DEBUG adc (main DEBUG adc n)).check_count := by
  obtain ⟨hct, hc0, hc5, hrel, X, hX, hdX⟩ := main_inv DEBUG adc n
  obtain ⟨ht, Y, hY, hcase⟩ := sense_and_wait_spec DEBUG adc (main DEBUG adc n)
  generalize sense_and_wait DEBUG adc (main DEBUG adc n) = u at ht hY hcase ⊢
  generalize main DEBUG adc n = s at hct hc0 hc5 hrel hX hdX ht hY hcase
  simp only [CHECK_MAX] at hc5 hcase ⊢
  refine ⟨by rw [ht, hct], ?_⟩
  have hXY : u.trace = (main DEBUG adc (24 * (n / 24))).trace ++ (X ++ Y) := by
    rw [hY, hX, List.append_assoc]
  rcases hcase with ⟨h1, h2, h3⟩ | ⟨h1, h2, h3, h4⟩
  · refine ⟨by omega, by omega, by rw [h3, hrel], X ++ Y, hXY, ?_⟩
    rw [doses_append, h2, h1]
    simpa using hdX
  · have hw : wrapInt (s.check_count + 1) = s.check_count + 1 := by
      apply wrapInt_eq <;> omega
    rw [hw] at h2
    refine ⟨by omega, by omega, h4, X ++ Y, hXY, ?_⟩
    rw [doses_append, h3, h2]
    push_cast
    omega

theorem elapsed_wateringTrace_one (DEBUG : Bool) :
    elapsed (wateringTrace DEBUG 1 0) = 5000 := by
  have h : (wrapInt (2 * wrapInt (WATERING_TIME * 1))).toNat = 10 := by decide
  have hc : ¬ (0 : Int) ≥ CHECK_MAX := by decide
  rw [wateringTrace, if_neg hc, holdTrace, h, ← List.singleton_append]
  simp only [elapsed_append, elapsed_dbg, elapsed_blinkTrace]
  simp [elapsed]

/-- The last `update_check` of window `w`: the state `s` on entry has
`check_time = 23`, the call wraps it to 0, and the doses of the whole window
are those counted by `s.check_count` plus one forced dose when that count is
below `CHECK_MIN`. -/
theorem window_end (DEBUG : Bool) (adc : Nat → Nat) (w : Nat) :
    Int.tmod (wrapInt ((sense_and_wait DEBUG adc (main DEBUG adc (24 * w + 23))).check_time + 1))
      CHECK_PERIOD = 0 ∧
    ∃ X, (main DEBUG adc (24 * w + 24)).trace = (main DEBUG adc (24 * w)).trace ++ X ∧
      1 ≤ doses X ∧ doses X ≤ 5 := by
  obtain ⟨hct, hc0, hc5, -, X, hX, hdX⟩ := before_check_inv DEBUG adc (24 * w + 23)
  have hb : 24 * ((24 * w + 23) / 24) = 24 * w := by omega
  have hm : (24 * w + 23) % 24 = 23 := by omega
  rw [hb] at hX
  rw [hm] at hct
  have hmain : main DEBUG adc (24 * w + 24)
      = update_check DEBUG (sense_and_wait DEBUG adc (main DEBUG adc (24 * w + 23))) := rfl
  rw [hmain]
  generalize sense_and_wait DEBUG adc (main DEBUG adc (24 * w + 23)) = u at *
  have hz : Int.tmod (wrapInt (u.check_time + 1)) CHECK_PERIOD = 0 := by
    rw [hct]
    decide
  refine ⟨hz, ?_⟩
  simp only [CHECK_MAX] at hc5
  by_cases hc : u.check_count < CHECK_MIN
  · rw [update_check_wrap_short DEBUG u hz hc]
    refine ⟨_, by show u.trace ++ _ = _; rw [hX, List.append_assoc], ?_⟩
    have h5 : ¬ u.check_count ≥ CHECK_MAX := by
      simp only [CHECK_MAX, CHECK_MIN] at hc ⊢
      omega
    simp only [doses_append, doses_dbg, doses_wateringTrace, if_neg h5]
    simp only [CHECK_MIN] at hc
    omega
  · rw [update_check_wrap_enough DEBUG u hz hc]
    refine ⟨_, by show u.trace ++ _ = _; rw [hX, List.append_assoc], ?_⟩
    simp only [doses_append, doses_dbg]
    simp only [CHECK_MIN] at hc
    omega

/-! ## Claims on whole windows -/

/-- C1: for every sensor oracle, in both builds, and for every window `w`
(loop iterations `24 * w` to `24 * w + 23`), the number of relay openings
between the start of the window and any later point of it, up to and
including its end, is at most `CHECK_MAX = 5`. -/
theorem max_cap (DEBUG : Bool) (adc : Nat → Nat) (w n : Nat)
    (h1 : 24 * w ≤ n) (h2 : n ≤ 24 * w + 24) :
    (doses (since (main DEBUG adc (24 * w)) (main DEBUG adc n)) : Int) ≤ CHECK_MAX := by
  by_cases hn : n = 24 * w + 24
  · obtain ⟨-, X, hX, -, hle⟩ := window_end DEBUG adc w
    rw [hn, since_append _ _ X hX]
    simp only [CHECK_MAX]
    omega
  · obtain ⟨-, -, hc5, -, X, hX, hdX⟩ := main_inv DEBUG adc n
    have hb : 24 * (n / 24) = 24 * w := by omega
    rw [hb] at hX
    rw [since_append _ _ X hX, hdX]
    exact hc5

theorem max_cap_witness :
    24 * 1 ≤ 48 ∧ 48 ≤ 24 * 1 + 24 ∧
    (doses (since (main true (fun _ => 4095) (24 * 1)) (main true (fun _ => 4095) 48)) : Int)
      ≤ CHECK_MAX :=
  ⟨by decide, by decide, max_cap true (fun _ => 4095) 1 48 (by decide) (by decide)⟩

/-- C2: for every sensor oracle, in both builds, and for every window `w`:
the last `update_check` of the window wraps `check_time` to 0; if
`check_count < CHECK_MIN` on entry to it, it calls `watering(1)`, which is not
refused: the relay is opened once, for 5000 ms; and the number of relay
openings in the completed window is at least `CHECK_MIN = 1`. -/
theorem min_guarantee (DEBUG : Bool) (adc : Nat → Nat) (w : Nat) :
    main DEBUG adc (24 * w + 24)
      = update_check DEBUG (sense_and_wait DEBUG adc (main DEBUG adc (24 * w + 23))) ∧
    (main DEBUG adc (24 * w + 24)).check_time = 0 ∧
    ((sense_and_wait DEBUG adc (main DEBUG adc (24 * w + 23))).check_count < CHECK_MIN →
      Event.call_watering 1 ∈ since (sense_and_wait DEBUG adc (main DEBUG adc (24 * w + 23)))
        (main DEBUG adc (24 * w + 24)) ∧
      doses (since (sense_and_wait DEBUG adc (main DEBUG adc (24 * w + 23)))
        (main DEBUG adc (24 * w + 24))) = 1 ∧
      elapsed (since (sense_and_wait DEBUG adc (main DEBUG adc (24 * w + 23)))
        (main DEBUG adc (24 * w + 24))) = 5000) ∧
    CHECK_MIN ≤ (doses (since (main DEBUG adc (24 * w)) (main DEBUG adc (24 * w + 24))) : Int) := by
  obtain ⟨hz, X, hX, hge, -⟩ := window_end DEBUG adc w
  obtain ⟨-, hc0, -, -, -⟩ := before_check_inv DEBUG adc (24 * w + 23)
  refine ⟨rfl, ?_, ?_, ?_⟩
  · have hm : (24 * w + 24) % 24 = 0 := by omega
    rw [(main_inv DEBUG adc (24 * w + 24)).1, hm]
    rfl
  · intro hc
    have hmain : main DEBUG adc (24 * w + 24)
        = update_check DEBUG (sense_and_wait DEBUG adc (main DEBUG adc (24 * w + 23))) := rfl
    rw [hmain]
    generalize sense_and_wait DEBUG adc (main DEBUG adc (24 * w + 23)) = u at *
    have hcc : u.check_count = 0 := by
      simp only [CHECK_MIN] at hc
      omega
    have hs := since_append u _ _
      (show (update_check DEBUG u).trace = u.trace ++ _ by rw [update_check_wrap_short DEBUG u hz hc])
    have hw : wrapInt (CHECK_MIN - u.check_count) = 1 := by
      rw [hcc]
      decide
    rw [hs, hw, hcc]
    refine ⟨?_, ?_, ?_⟩
    · simp [call_mem_wateringTrace]
    · simp only [doses_append, doses_dbg, doses_wateringTrace]
      decide
    · simp only [elapsed_append, elapsed_dbg, elapsed_wateringTrace_one]
  · rw [since_append _ _ X hX]
    simp only [CHECK_MIN]
    omega

set_option maxRecDepth 100000

theorem min_guarantee_witness :
    (sense_and_wait false (fun _ => 0) (main false (fun _ => 0) (24 * 0 + 23))).check_count
      < CHECK_MIN ∧
    doses (since (sense_and_wait false (fun _ => 0) (main false (fun _ => 0) (24 * 0 + 23)))
      (main false (fun _ => 0) (24 * 0 + 24))) = 1 :=
  ⟨by decide, ((min_guarantee false (fun _ => 0) 0).2.2.1 (by decide)).2.1⟩

/-! ## Claims on `wait` -/

theorem call_not_mem_waitTrace (DEBUG : Bool) (adc : Nat → Nat) (dose : Int) (r n : Nat) :
    Event.call_watering dose ∉ waitTrace DEBUG adc r n := by
  induction n generalizing r with
  | zero => simp [waitTrace]
  | succ n ih => simp [waitTrace, ih, call_not_mem_dbg]

theorem gpio_not_mem_dbg (DEBUG : Bool) (pin : Nat) (v : Bool) (m : Msg) :
    Event.gpio_put pin v ∉ dbg DEBUG m := by
  cases DEBUG <;> simp [dbg]

theorem gpio_not_mem_waitTrace (DEBUG : Bool) (adc : Nat → Nat) (pin : Nat) (v : Bool)
    (r n : Nat) : Event.gpio_put pin v ∉ waitTrace DEBUG adc r n := by
  induction n generalizing r with
  | zero => simp [waitTrace]
  | succ n ih => simp [waitTrace, ih, gpio_not_mem_dbg]

theorem call_not_mem_waitEvents (DEBUG : Bool) (adc : Nat → Nat) (dose : Int) (r : Nat) :
    Event.call_watering dose ∉ waitEvents DEBUG adc r := by
  cases DEBUG
  · simp [waitEvents]
  · show Event.call_watering dose ∉ waitTrace true adc r 360
    exact call_not_mem_waitTrace true adc dose r 360

theorem gpio_not_mem_waitEvents (DEBUG : Bool) (adc : Nat → Nat) (pin : Nat) (v : Bool)
    (r : Nat) : Event.gpio_put pin v ∉ waitEvents DEBUG adc r := by
  cases DEBUG
  · simp [waitEvents]
  · show Event.gpio_put pin v ∉ waitTrace true adc r 360
    exact gpio_not_mem_waitTrace true adc pin v r 360

theorem nonDiagnostic_append (a b : List Event) :
    nonDiagnostic (a ++ b) = nonDiagnostic a ++ nonDiagnostic b := by
  simp [nonDiagnostic]

theorem nonDiagnostic_dbg (DEBUG : Bool) (m : Msg) : nonDiagnostic (dbg DEBUG m) = [] := by
  cases DEBUG <;> simp [dbg, nonDiagnostic]

theorem nonDiagnostic_waitTrace (DEBUG : Bool) (adc : Nat → Nat) (r n : Nat) :
    nonDiagnostic (waitTrace DEBUG adc r n) = List.replicate n (Event.sleep_ms 10000) := by
  induction n generalizing r with
  | zero => simp [waitTrace, nonDiagnostic]
  | succ n ih =>
    simp only [waitTrace, nonDiagnostic_append, nonDiagnostic_dbg, ih, List.replicate_succ]
    simp [nonDiagnostic]

/-- C14: for every `delay` argument, every sensor oracle and both builds,
`wait` leaves `check_time`, `check_count`, the relay output and the LED output
unchanged, emits no call of `watering` and no pin write, and the values read
have no influence beyond the diagnostic events themselves: with any other
sensor oracle the resulting state is the same apart from the trace, and the
two traces agree once conversions and prints are erased. -/
theorem wait_never_acts (DEBUG : Bool) (adc adc2 : Nat → Nat) (delay : Int) (s : State) :
    (wait DEBUG adc delay s).check_time = s.check_time ∧
    (wait DEBUG adc delay s).check_count = s.check_count ∧
    (wait DEBUG adc delay s).relay = s.relay ∧
    (wait DEBUG adc delay s).led = s.led ∧
    (∀ dose, Event.call_watering dose ∉ since s (wait DEBUG adc delay s)) ∧
    (∀ pin value, Event.gpio_put pin value ∉ since s (wait DEBUG adc delay s)) ∧
    { wait DEBUG adc delay s with trace := [] } = { wait DEBUG adc2 delay s with trace := [] } ∧
    nonDiagnostic (since s (wait DEBUG adc delay s))
      = nonDiagnostic (since s (wait DEBUG adc2 delay s)) := by
  have hs : ∀ a : Nat → Nat, since s (wait DEBUG a delay s) = waitEvents DEBUG a s.reads :=
    fun a => since_append s _ _ (by rw [wait_eq])
  refine ⟨by rw [wait_eq], by rw [wait_eq], by rw [wait_eq], by rw [wait_eq], ?_, ?_, ?_, ?_⟩
  · intro dose
    rw [hs]
    exact call_not_mem_waitEvents DEBUG adc dose s.reads
  · intro pin value
    rw [hs]
    exact gpio_not_mem_waitEvents DEBUG adc pin value s.reads
  · rw [wait_eq, wait_eq]
  · rw [hs, hs]
    cases DEBUG
    · simp [waitEvents]
    · show nonDiagnostic (waitTrace true adc s.reads 360)
        = nonDiagnostic (waitTrace true adc2 s.reads 360)
      rw [nonDiagnostic_waitTrace, nonDiagnostic_waitTrace]

/-- C17: the `DEBUG` variant of `wait` performs `DELAY / DEBUG_DELAY = 360`
sleeps, each of `1000 * DEBUG_DELAY = 10000` ms, and nothing else that takes
time; the other variant performs the single sleep of `1000 * DELAY` ms; both
sleep `1000 * DELAY = 3600000` ms in total. -/
theorem wait_elapsed_same (adc adc2 : Nat → Nat) (delay : Int) (s s2 : State) :
    nonDiagnostic (since s (wait true adc delay s))
      = List.replicate (Int.tdiv DELAY DEBUG_DELAY).toNat
          (Event.sleep_ms (1000 * DEBUG_DELAY).toNat) ∧
    since s2 (wait false adc2 delay s2) = [Event.sleep_ms (1000 * DELAY).toNat] ∧
    elapsed (since s (wait true adc delay s)) = elapsed (since s2 (wait false adc2 delay s2)) ∧
    (elapsed (since s (wait true adc delay s)) : Int) = 1000 * DELAY ∧
    elapsed (since s2 (wait false adc2 delay s2)) = 3600000 := by
  have hs : ∀ (D : Bool) (a : Nat → Nat) (t : State),
      since t (wait D a delay t) = waitEvents D a t.reads :=
    fun D a t => since_append t _ _ (by rw [wait_eq])
  have h360 : (Int.tdiv DELAY DEBUG_DELAY).toNat = 360 := by decide
  have h10 : (1000 * DEBUG_DELAY).toNat = 10000 := by decide
  have h36 : (1000 * DELAY).toNat = 3600000 := by decide
  refine ⟨?_, ?_, ?_, ?_, ?_⟩
  · rw [hs, h360, h10]
    show nonDiagnostic (waitTrace true adc s.reads 360) = _
    rw [nonDiagnostic_waitTrace]
  · rw [hs, h36]
    rfl
  · rw [hs, hs, elapsed_waitEvents, elapsed_waitEvents]
  · rw [hs, elapsed_waitEvents]
    decide
  · rw [hs, elapsed_waitEvents]

/-- C16: a call of `update_check` that does not wrap `check_time` to 0
changes nothing but `check_time`: `check_count`, both output pins and the ADC
are untouched, no pin is written, `watering` is not called, and the only
event is the `DEBUG` message; with `check_time` in `[0, CHECK_PERIOD)` on
entry the new value is `check_time + 1`.  For every call, `check_count` is 0
afterwards if `check_time` wrapped to 0 and is unchanged otherwise. -/
theorem update_check_mid_window (DEBUG : Bool) (s : State)
    (hmid : (update_check DEBUG s).check_time ≠ 0) :
    (update_check DEBUG s).check_count = s.check_count ∧
    (update_check DEBUG s).relay = s.relay ∧
    (update_check DEBUG s).led = s.led ∧
    (update_check DEBUG s).reads = s.reads ∧
    since s (update_check DEBUG s)
      = dbg DEBUG (Msg.check (update_check DEBUG s).check_time s.check_count) ∧
    (∀ dose, Event.call_watering dose ∉ since s (update_check DEBUG s)) ∧
    (∀ pin value, Event.gpio_put pin value ∉ since s (update_check DEBUG s)) ∧
    (0 ≤ s.check_time → s.check_time < CHECK_PERIOD →
      (update_check DEBUG s).check_time = s.check_time + 1) ∧
    (∀ t : State, (update_check DEBUG t).check_count
      = if (update_check DEBUG t).check_time = 0 then 0 else t.check_count) := by
  have hct := update_check_check_time DEBUG s
  have hnw : Int.tmod (wrapInt (s.check_time + 1)) CHECK_PERIOD ≠ 0 := by
    rw [← hct]
    exact hmid
  have hs : since s (update_check DEBUG s)
      = dbg DEBUG (Msg.check (update_check DEBUG s).check_time s.check_count) := by
    apply since_append
    rw [hct, update_check_nowrap DEBUG s hnw]
  refine ⟨?_, ?_, ?_, ?_, hs, ?_, ?_, ?_, ?_⟩
  · rw [update_check_nowrap DEBUG s hnw]
  · rw [update_check_nowrap DEBUG s hnw]
  · rw [update_check_nowrap DEBUG s hnw]
  · rw [update_check_nowrap DEBUG s hnw]
  · intro dose
    rw [hs]
    exact call_not_mem_dbg DEBUG dose _
  · intro pin value
    rw [hs]
    exact gpio_not_mem_dbg DEBUG pin value _
  · intro h0 h1
    have hstep := update_check_step DEBUG s h0 h1
    rw [hstep] at hmid ⊢
    simp only [CHECK_PERIOD] at h1 hmid ⊢
    omega
  · intro t
    have htt := update_check_check_time DEBUG t
    by_cases hw : Int.tmod (wrapInt (t.check_time + 1)) CHECK_PERIOD = 0
    · rw [if_pos (htt.trans hw)]
      by_cases hc : t.check_count < CHECK_MIN
      · rw [update_check_wrap_short DEBUG t hw hc]
      · rw [update_check_wrap_enough DEBUG t hw hc]
    · rw [if_neg (fun h => hw (htt.symm.trans h)), update_check_nowrap DEBUG t hw]

theorem update_check_mid_window_witness :
    (update_check true { initial with check_time := 7, check_count := 3 }).check_time ≠ 0 ∧
    (update_check true { initial with check_time := 7, check_count := 3 }).check_count = 3 ∧
    (update_check true { initial with check_time := 7, check_count := 3 }).check_time = 7 + 1 :=
  ⟨by decide,
   (update_check_mid_window true { initial with check_time := 7, check_count := 3 }
      (by decide)).1,
   (update_check_mid_window true { initial with check_time := 7, check_count := 3 }
      (by decide)).2.2.2.2.2.2.2.1 (by decide) (by decide)⟩

/-! ## Counter and doses -/

/-- C15: after every number `n` of loop iterations `check_count` lies in
`[0, CHECK_MAX]` and equals the number of relay openings since the start of
the current window; the same holds just before `update_check` in the next
iteration.  Across the decision and the wait the counter grows by exactly the
number of doses delivered there; a non-wrapping `update_check` delivers none
and keeps the counter.  A delivering call of `watering` opens the relay once
and adds one to the counter; a refused call does neither. -/
theorem counter_counts_doses (DEBUG : Bool) (adc : Nat → Nat) (n : Nat) :
    (0 ≤ (main DEBUG adc n).check_count ∧ (main DEBUG adc n).check_count ≤ CHECK_MAX) ∧
    (doses (since (main DEBUG adc (24 * (n / 24))) (main DEBUG adc n)) : Int)
      = (main DEBUG adc n).check_count ∧
    (0 ≤ (sense_and_wait DEBUG adc (main DEBUG adc n)).check_count ∧
      (sense_and_wait DEBUG adc (main DEBUG adc n)).check_count ≤ CHECK_MAX) ∧
    (doses (since (main DEBUG adc (24 * (n / 24)))
        (sense_and_wait DEBUG adc (main DEBUG adc n))) : Int)
      = (sense_and_wait DEBUG adc (main DEBUG adc n)).check_count ∧
    (sense_and_wait DEBUG adc (main DEBUG adc n)).check_count
      = (main DEBUG adc n).check_count
        + doses (since (main DEBUG adc n) (sense_and_wait DEBUG adc (main DEBUG adc n))) ∧
    ((main DEBUG adc (n + 1)).check_time ≠ 0 →
      (main DEBUG adc (n + 1)).check_count
          = (sense_and_wait DEBUG adc (main DEBUG adc n)).check_count ∧
        doses (since (sense_and_wait DEBUG adc (main DEBUG adc n)) (main DEBUG adc (n + 1)))
          = 0) ∧
    (∀ (dose : Int) (s : State), -2147483648 ≤ s.check_count → s.check_count < CHECK_MAX →
      (watering DEBUG dose s).check_count = s.check_count + 1 ∧
        doses (since s (watering DEBUG dose s)) = 1) ∧
    (∀ (dose : Int) (s : State), s.check_count ≥ CHECK_MAX →
      (watering DEBUG dose s).check_count = s.check_count ∧
        doses (since s (watering DEBUG dose s)) = 0) := by
  obtain ⟨-, hc0, hc5, -, X, hX, hdX⟩ := main_inv DEBUG adc n
  obtain ⟨-, hu0, hu5, -, Y, hY, hdY⟩ := before_check_inv DEBUG adc n
  obtain ⟨-, Z, hZ, hcase⟩ := sense_and_wait_spec DEBUG adc (main DEBUG adc n)
  refine ⟨⟨hc0, hc5⟩, ?_, ⟨hu0, hu5⟩, ?_, ?_, ?_, ?_, ?_⟩
  · rw [since_append _ _ X hX, hdX]
  · rw [since_append _ _ Y hY, hdY]
  · rw [since_append _ _ Z hZ]
    rcases hcase with ⟨h1, h2, -⟩ | ⟨h1, h2, h3, -⟩
    · rw [h1, h2]
      simp
    · have hw : wrapInt ((main DEBUG adc n).check_count + 1)
          = (main DEBUG adc n).check_count + 1 := by
        simp only [CHECK_MAX] at h1
        apply wrapInt_eq <;> omega
      rw [h2, h3, hw]
      simp
  · intro hmid
    rw [main_succ] at hmid ⊢
    generalize sense_and_wait DEBUG adc (main DEBUG adc n) = u at hmid ⊢
    have hnw : Int.tmod (wrapInt (u.check_time + 1)) CHECK_PERIOD ≠ 0 := by
      rw [← update_check_check_time DEBUG u]
      exact hmid
    constructor
    · rw [update_check_nowrap DEBUG u hnw]
    · rw [since_append u _ _
        (show (update_check DEBUG u).trace = u.trace ++ _ by rw [update_check_nowrap DEBUG u hnw])]
      exact doses_dbg DEBUG _
  · intro dose s hlo hhi
    have hn : ¬ s.check_count ≥ CHECK_MAX := not_le.mpr hhi
    have hw : wrapInt (s.check_count + 1) = s.check_count + 1 := by
      simp only [CHECK_MAX] at hhi
      apply wrapInt_eq <;> omega
    constructor
    · rw [watering_eq, if_neg hn]
      exact hw
    · rw [since_append s _ (wateringTrace DEBUG dose s.check_count)
        (by rw [watering_eq, if_neg hn]), doses_wateringTrace, if_neg hn]
  · intro dose s hge
    constructor
    · rw [watering_eq, if_pos hge]
    · rw [since_append s _ (wateringTrace DEBUG dose s.check_count)
        (by rw [watering_eq, if_pos hge]), doses_wateringTrace, if_pos hge]

/-! ## Closed forms of one loop iteration -/

theorem sense_and_wait_wet (DEBUG : Bool) (adc : Nat → Nat) (s : State)
    (h : ((read_sensor DEBUG adc s).1 : Int) ≤ TARGET_MAX) :
    sense_and_wait DEBUG adc s =
      { s with led := false, reads := s.reads + 1 + (if DEBUG then 360 else 0),
               trace := s.trace ++ (Event.adc_read (adc s.reads % 65536)
                 :: dbg DEBUG (Msg.dryness (adc s.reads % 65536))
                 ++ [Event.gpio_put LED_PIN false] ++ waitEvents DEBUG adc (s.reads + 1)) } := by
  rw [read_sensor_eq] at h
  have hd : ¬ ((adc s.reads % 65536 : Nat) : Int) > TARGET_MAX := not_lt.mpr h
  unfold sense_and_wait decision
  rw [read_sensor_eq]
  simp only []
  rw [if_neg hd, wait_eq]
  simp [gpio_put, emit, LED_PIN, RELAY_PIN]

theorem sense_and_wait_dry (DEBUG : Bool) (adc : Nat → Nat) (s : State)
    (h : ((read_sensor DEBUG adc s).1 : Int) > TARGET_MAX) :
    sense_and_wait DEBUG adc s =
      if s.check_count ≥ CHECK_MAX then
        { s with reads := s.reads + 1 + (if DEBUG then 360 else 0),
                 trace := s.trace ++ (Event.adc_read (adc s.reads % 65536)
                   :: dbg DEBUG (Msg.dryness (adc s.reads % 65536))
                   ++ wateringTrace DEBUG 1 s.check_count
                   ++ waitEvents DEBUG adc (s.reads + 1)) }
      else
        { s with check_count := wrapInt (s.check_count + 1), relay := false, led := true,
                 reads := s.reads + 1 + (if DEBUG then 360 else 0),
                 trace := s.trace ++ (Event.adc_read (adc s.reads % 65536)
                   :: dbg DEBUG (Msg.dryness (adc s.reads % 65536))
                   ++ wateringTrace DEBUG 1 s.check_count
                   ++ waitEvents DEBUG adc (s.reads + 1)) } := by
  rw [read_sensor_eq] at h
  unfold sense_and_wait decision
  rw [read_sensor_eq]
  simp only []
  rw [if_pos h, watering_eq, wait_eq]
  by_cases hc : s.check_count ≥ CHECK_MAX
  · simp [hc]
  · simp [hc]

theorem call_not_mem_startupEvents (DEBUG : Bool) (adc : Nat → Nat) (dose : Int) (r : Nat) :
    Event.call_watering dose ∉ startupEvents DEBUG adc r := by
  simp [startupEvents, call_not_mem_blinkTrace, call_not_mem_waitEvents]

theorem doses_startupEvents (DEBUG : Bool) (adc : Nat → Nat) (r : Nat) :
    doses (startupEvents DEBUG adc r) = 0 := by
  simp only [startupEvents, doses_append, doses_blinkTrace, doses_waitEvents]
  simp [doses, LED_PIN, RELAY_PIN]

theorem main_zero (DEBUG : Bool) (adc : Nat → Nat) :
    main DEBUG adc 0 =
      { initial with reads := if DEBUG then 360 else 0,
                     trace := startupEvents DEBUG adc 0 } := by
  rw [main, main_loop, startup_eq]
  simp [initial]

/-! ## Scenarios over one window -/

theorem update_check_nowrap_of_lt (DEBUG : Bool) (u : State) (i : Nat)
    (hct : u.check_time = ((i % 24 : Nat) : Int)) (hi : i < 23) :
    Int.tmod (wrapInt (u.check_time + 1)) CHECK_PERIOD ≠ 0 := by
  have hstep := update_check_step DEBUG u (by omega) (by simp only [CHECK_PERIOD]; omega)
  rw [← update_check_check_time DEBUG u, hstep, hct]
  simp only [CHECK_PERIOD]
  omega

theorem wet_run_counts (DEBUG : Bool) (adc : Nat → Nat)
    (hwet : ∀ i, i < 24 → ((read_sensor DEBUG adc (main DEBUG adc i)).1 : Int) ≤ TARGET_MAX)
    (i : Nat) (hi : i ≤ 23) :
    (main DEBUG adc i).check_count = 0 ∧
    (∀ dose, Event.call_watering dose ∉ (main DEBUG adc i).trace) ∧
    doses (main DEBUG adc i).trace = 0 := by
  induction i with
  | zero =>
    rw [main_zero]
    exact ⟨rfl, fun dose => call_not_mem_startupEvents DEBUG adc dose 0,
      doses_startupEvents DEBUG adc 0⟩
  | succ i ih =>
    obtain ⟨hcc, hcall, hdoses⟩ := ih (by omega)
    have hct := (main_inv DEBUG adc i).1
    have hw := sense_and_wait_wet DEBUG adc (main DEBUG adc i) (hwet i (by omega))
    rw [main_succ]
    generalize main DEBUG adc i = s at hcc hcall hdoses hct hw
    have hnw : Int.tmod (wrapInt ((sense_and_wait DEBUG adc s).check_time + 1)) CHECK_PERIOD ≠ 0 := by
      apply update_check_nowrap_of_lt DEBUG _ i _ (by omega)
      rw [hw]
      exact hct
    rw [update_check_nowrap DEBUG _ hnw, hw]
    refine ⟨hcc, ?_, ?_⟩
    · intro dose
      simp [hcall, call_not_mem_dbg, call_not_mem_waitEvents]
    · simp only [doses_append, doses_dbg, doses_waitEvents, hdoses]
      rw [← List.singleton_append, doses_append, doses_dbg]
      simp [doses, LED_PIN, RELAY_PIN]

/-- C12: if the reading taken at each of the first 24 decisions is at or
below `TARGET_MAX`, then up to the 24th call of `update_check` no watering is
requested and no dose delivered; that call emits the "not enough" message (in
the `DEBUG` build), one call `watering(1)` that opens the relay once for
5000 ms, and the check message; after it exactly one dose has been delivered
since process start, and `check_count = 0`, `check_time = 0`. -/
theorem all_wet_scenario (DEBUG : Bool) (adc : Nat → Nat)
    (hwet : ∀ i, i < 24 → ((read_sensor DEBUG adc (main DEBUG adc i)).1 : Int) ≤ TARGET_MAX) :
    doses (main DEBUG adc 24).trace = 1 ∧
    (∀ dose, Event.call_watering dose ∉ (sense_and_wait DEBUG adc (main DEBUG adc 23)).trace) ∧
    doses (sense_and_wait DEBUG adc (main DEBUG adc 23)).trace = 0 ∧
    since (sense_and_wait DEBUG adc (main DEBUG adc 23)) (main DEBUG adc 24)
      = dbg DEBUG (Msg.not_enough 1) ++ wateringTrace DEBUG 1 0 ++ dbg DEBUG (Msg.check 0 0) ∧
    (since (sense_and_wait DEBUG adc (main DEBUG adc 23)) (main DEBUG adc 24)).count
      (Event.call_watering 1) = 1 ∧
    doses (since (sense_and_wait DEBUG adc (main DEBUG adc 23)) (main DEBUG adc 24)) = 1 ∧
    elapsed (since (sense_and_wait DEBUG adc (main DEBUG adc 23)) (main DEBUG adc 24)) = 5000 ∧
    (main DEBUG adc 24).check_count = 0 ∧
    (main DEBUG adc 24).check_time = 0 := by
  obtain ⟨hcc, hcall, hdoses⟩ := wet_run_counts DEBUG adc hwet 23 (le_refl _)
  have hw := sense_and_wait_wet DEBUG adc (main DEBUG adc 23) (hwet 23 (by decide))
  have hz : Int.tmod (wrapInt ((sense_and_wait DEBUG adc (main DEBUG adc 23)).check_time + 1))
      CHECK_PERIOD = 0 := (window_end DEBUG adc 0).1
  have hmain : main DEBUG adc 24
      = update_check DEBUG (sense_and_wait DEBUG adc (main DEBUG adc 23)) := rfl
  have hu : (sense_and_wait DEBUG adc (main DEBUG adc 23)).check_count = 0 := by
    rw [hw]
    exact hcc
  have hucall : ∀ dose,
      Event.call_watering dose ∉ (sense_and_wait DEBUG adc (main DEBUG adc 23)).trace := by
    intro dose
    rw [hw]
    simp [hcall, call_not_mem_dbg, call_not_mem_waitEvents]
  have hudoses : doses (sense_and_wait DEBUG adc (main DEBUG adc 23)).trace = 0 := by
    rw [hw]
    simp only [doses_append, doses_waitEvents, hdoses]
    rw [← List.singleton_append, doses_append, doses_dbg]
    simp [doses, LED_PIN, RELAY_PIN]
  rw [hmain]
  generalize sense_and_wait DEBUG adc (main DEBUG adc 23) = u at hz hu hucall hudoses ⊢
  have hc : u.check_count < CHECK_MIN := by
    rw [hu]
    decide
  have h1 : wrapInt (CHECK_MIN - u.check_count) = 1 := by
    rw [hu]
    decide
  have hupd := update_check_wrap_short DEBUG u hz hc
  rw [h1, hu] at hupd
  have hs : since u (update_check DEBUG u)
      = dbg DEBUG (Msg.not_enough 1) ++ wateringTrace DEBUG 1 0 ++ dbg DEBUG (Msg.check 0 0) :=
    since_append u _ _ (by rw [hupd])
  have hd1 : doses (wateringTrace DEBUG 1 0) = 1 := by
    rw [doses_wateringTrace]
    decide
  have hcnt : (wateringTrace DEBUG 1 0).count (Event.call_watering 1) = 1 := by
    have hb : ∀ n, (blinkTrace n).count (Event.call_watering 1) = 0 := fun n =>
      List.count_eq_zero.mpr (call_not_mem_blinkTrace _ n)
    have h5 : ¬ (0 : Int) ≥ CHECK_MAX := by decide
    unfold wateringTrace holdTrace
    rw [if_neg h5]
    cases DEBUG <;> simp [dbg, hb]
  have hdbgc : ∀ m, (dbg DEBUG m).count (Event.call_watering 1) = 0 := fun m =>
    List.count_eq_zero.mpr (call_not_mem_dbg DEBUG 1 m)
  refine ⟨?_, hucall, hudoses, hs, ?_, ?_, ?_, ?_, ?_⟩
  · rw [hupd]
    simp only [doses_append, doses_dbg, hudoses, hd1]
  · rw [hs]
    simp only [List.count_append, hdbgc, hcnt]
  · rw [hs]
    simp only [doses_append, doses_dbg, hd1]
  · rw [hs]
    simp only [elapsed_append, elapsed_dbg, elapsed_wateringTrace_one]
  · rw [hupd]
  · rw [hupd]

theorem all_wet_scenario_witness :
    (∀ i, i < 24 →
      ((read_sensor true (fun _ => 2400) (main true (fun _ => 2400) i)).1 : Int) ≤ TARGET_MAX) ∧
    doses (main true (fun _ => 2400) 24).trace = 1 ∧
    (main true (fun _ => 2400) 24).check_count = 0 :=
  ⟨fun i _ => by
      rw [read_sensor_eq]
      show ((2400 % 65536 : Nat) : Int) ≤ TARGET_MAX
      decide,
   (all_wet_scenario true (fun _ => 2400)
      (fun i _ => by
      rw [read_sensor_eq]
      show ((2400 % 65536 : Nat) : Int) ≤ TARGET_MAX
      decide)).1,
   (all_wet_scenario true (fun _ => 2400)
      (fun i _ => by
      rw [read_sensor_eq]
      show ((2400 % 65536 : Nat) : Int) ≤ TARGET_MAX
      decide)).2.2.2.2.2.2.2.1⟩

theorem relayWrites_waitTrace (DEBUG : Bool) (adc : Nat → Nat) (r n : Nat) :
    relayWrites (waitTrace DEBUG adc r n) = 0 := by
  induction n generalizing r with
  | zero => simp [waitTrace, relayWrites]
  | succ n ih =>
    simp only [waitTrace, relayWrites_append, relayWrites_dbg, ih]
    simp [relayWrites]

theorem relayWrites_waitEvents (DEBUG : Bool) (adc : Nat → Nat) (r : Nat) :
    relayWrites (waitEvents DEBUG adc r) = 0 := by
  cases DEBUG
  · simp [waitEvents, relayWrites]
  · show relayWrites (waitTrace true adc r 360) = 0
    rw [relayWrites_waitTrace]

theorem relayWrites_wateringTrace_refused (DEBUG : Bool) (dose count : Int)
    (h : count ≥ CHECK_MAX) : relayWrites (wateringTrace DEBUG dose count) = 0 := by
  rw [wateringTrace, if_pos h, ← List.singleton_append, relayWrites_append, relayWrites_dbg]
  simp [relayWrites]

theorem count_call_wateringTrace (DEBUG : Bool) (dose count : Int) :
    (wateringTrace DEBUG dose count).count (Event.call_watering dose) = 1 := by
  have hb : ∀ n, (blinkTrace n).count (Event.call_watering dose) = 0 := fun n =>
    List.count_eq_zero.mpr (call_not_mem_blinkTrace _ n)
  unfold wateringTrace holdTrace
  split <;> cases DEBUG <;> simp [dbg, hb]

/-- Counter and doses delivered after `i <= 23` iterations whose readings are
all above `TARGET_MAX`: both are `min i 5`. -/
theorem dry_run_counts (DEBUG : Bool) (adc : Nat → Nat)
    (hdry : ∀ i, i < 24 → ((read_sensor DEBUG adc (main DEBUG adc i)).1 : Int) > TARGET_MAX)
    (i : Nat) (hi : i ≤ 23) :
    (main DEBUG adc i).check_count = ((min i 5 : Nat) : Int) ∧
    doses (main DEBUG adc i).trace = min i 5 := by
  induction i with
  | zero =>
    rw [main_zero]
    exact ⟨rfl, doses_startupEvents DEBUG adc 0⟩
  | succ i ih =>
    obtain ⟨hcc, hdoses⟩ := ih (by omega)
    have hct := (main_inv DEBUG adc i).1
    have hw := sense_and_wait_dry DEBUG adc (main DEBUG adc i) (hdry i (by omega))
    rw [main_succ]
    generalize main DEBUG adc i = s at hcc hdoses hct hw
    have hnw : Int.tmod (wrapInt ((sense_and_wait DEBUG adc s).check_time + 1)) CHECK_PERIOD ≠ 0 := by
      apply update_check_nowrap_of_lt DEBUG _ i _ (by omega)
      rw [hw]
      split <;> exact hct
    rw [update_check_nowrap DEBUG _ hnw, hw]
    by_cases hc : s.check_count ≥ CHECK_MAX
    · rw [if_pos hc]
      have h5 : 5 ≤ i := by
        rw [hcc] at hc
        simp only [CHECK_MAX] at hc
        omega
      refine ⟨?_, ?_⟩
      · show s.check_count = _
        rw [hcc]
        congr 1
        omega
      · simp only [doses_append, doses_dbg, doses_waitEvents, doses_wateringTrace, if_pos hc,
          hdoses]
        rw [← List.singleton_append, doses_append, doses_dbg]
        simp [doses]
        omega
    · rw [if_neg hc]
      have h5 : i < 5 := by
        rw [hcc] at hc
        simp only [CHECK_MAX] at hc
        omega
      have hmin : min i 5 = i := by omega
      have hmin1 : min (i + 1) 5 = i + 1 := by omega
      rw [hmin] at hcc hdoses
      rw [hmin1]
      refine ⟨?_, ?_⟩
      · show wrapInt (s.check_count + 1) = _
        rw [hcc, wrapInt_eq] <;> push_cast <;> omega
      · simp only [doses_append, doses_dbg, doses_waitEvents, doses_wateringTrace, if_neg hc,
          hdoses]
        rw [← List.singleton_append, doses_append, doses_dbg]
        simp [doses]

/-- The trace only grows: one more loop iteration appends events. -/
theorem main_trace_succ (DEBUG : Bool) (adc : Nat → Nat) (n : Nat) :
    ∃ X, (main DEBUG adc (n + 1)).trace = (main DEBUG adc n).trace ++ X := by
  obtain ⟨-, X, hX, -⟩ := sense_and_wait_spec DEBUG adc (main DEBUG adc n)
  rw [main_succ]
  generalize sense_and_wait DEBUG adc (main DEBUG adc n) = u at hX ⊢
  by_cases hz : Int.tmod (wrapInt (u.check_time + 1)) CHECK_PERIOD = 0
  · by_cases hc : u.check_count < CHECK_MIN
    · refine ⟨X ++ (dbg DEBUG (Msg.not_enough (wrapInt (CHECK_MIN - u.check_count)))
        ++ wateringTrace DEBUG (wrapInt (CHECK_MIN - u.check_count)) u.check_count
        ++ dbg DEBUG (Msg.check 0 0)), ?_⟩
      rw [update_check_wrap_short DEBUG u hz hc]
      show u.trace ++ _ = _
      rw [hX, List.append_assoc]
    · refine ⟨X ++ dbg DEBUG (Msg.check 0 0), ?_⟩
      rw [update_check_wrap_enough DEBUG u hz hc]
      show u.trace ++ _ = _
      rw [hX, List.append_assoc]
  · refine ⟨X ++ dbg DEBUG
      (Msg.check (Int.tmod (wrapInt (u.check_time + 1)) CHECK_PERIOD) u.check_count), ?_⟩
    rw [update_check_nowrap DEBUG u hz]
    show u.trace ++ _ = _
    rw [hX, List.append_assoc]

/-- Events of loop iteration `i + 1 <= 24` of a run whose readings are all
above `TARGET_MAX`: the conversion, one call `watering(1)` entered with
counter `min i 5`, the wait, and the check message; no forced request. -/
theorem dry_iteration (DEBUG : Bool) (adc : Nat → Nat)
    (hdry : ∀ i, i < 24 → ((read_sensor DEBUG adc (main DEBUG adc i)).1 : Int) > TARGET_MAX)
    (i : Nat) (hi : i < 24) :
    ∃ m, since (sense_and_wait DEBUG adc (main DEBUG adc i)) (main DEBUG adc (i + 1))
        = dbg DEBUG m ∧
      since (main DEBUG adc i) (main DEBUG adc (i + 1))
        = Event.adc_read (adc (main DEBUG adc i).reads % 65536)
            :: dbg DEBUG (Msg.dryness (adc (main DEBUG adc i).reads % 65536))
          ++ wateringTrace DEBUG 1 ((min i 5 : Nat) : Int)
          ++ waitEvents DEBUG adc ((main DEBUG adc i).reads + 1) ++ dbg DEBUG m := by
  obtain ⟨hcc, -⟩ := dry_run_counts DEBUG adc hdry i (by omega)
  have hct := (main_inv DEBUG adc i).1
  have hw := sense_and_wait_dry DEBUG adc (main DEBUG adc i) (hdry i hi)
  rw [main_succ]
  generalize main DEBUG adc i = s at hcc hct hw
  have hut : (sense_and_wait DEBUG adc s).trace = s.trace ++
      (Event.adc_read (adc s.reads % 65536) :: dbg DEBUG (Msg.dryness (adc s.reads % 65536))
        ++ wateringTrace DEBUG 1 ((min i 5 : Nat) : Int)
        ++ waitEvents DEBUG adc (s.reads + 1)) := by
    rw [hw, ← hcc]
    split <;> rfl
  have huct : (sense_and_wait DEBUG adc s).check_time = ((i % 24 : Nat) : Int) := by
    rw [hw]
    split <;> exact hct
  by_cases h23 : i < 23
  · have hnw := update_check_nowrap_of_lt DEBUG _ i huct h23
    refine ⟨_, since_append _ _ _
      (show (update_check DEBUG (sense_and_wait DEBUG adc s)).trace = _ ++ dbg DEBUG _ by
        rw [update_check_nowrap DEBUG _ hnw]), ?_⟩
    apply since_append
    rw [update_check_nowrap DEBUG _ hnw]
    show (sense_and_wait DEBUG adc s).trace ++ _ = _
    rw [hut, List.append_assoc]
  · have hi23 : i = 23 := by omega
    have hz : Int.tmod (wrapInt ((sense_and_wait DEBUG adc s).check_time + 1)) CHECK_PERIOD
        = 0 := by
      rw [huct, hi23]
      decide
    have hc : ¬ (sense_and_wait DEBUG adc s).check_count < CHECK_MIN := by
      have h5 : s.check_count ≥ CHECK_MAX := by
        rw [hcc, hi23]
        decide
      rw [hw, if_pos h5]
      show ¬ s.check_count < CHECK_MIN
      rw [hcc, hi23]
      decide
    refine ⟨_, since_append _ _ _
      (show (update_check DEBUG (sense_and_wait DEBUG adc s)).trace = _ ++ dbg DEBUG _ by
        rw [update_check_wrap_enough DEBUG _ hz hc]), ?_⟩
    apply since_append
    rw [update_check_wrap_enough DEBUG _ hz hc]
    show (sense_and_wait DEBUG adc s).trace ++ _ = _
    rw [hut, List.append_assoc]

/-- C13: if the reading taken at each of the first 24 decisions is above
`TARGET_MAX`, then each of the first 5 iterations delivers one dose; each of
the iterations 6 to 24 calls `watering(1)` once and writes the relay pin not
at all; the 24th `update_check` calls `watering` not at all; after the 24
iterations 5 doses have been delivered since process start and
`check_count = 0`, `check_time = 0`. -/
theorem all_dry_scenario (DEBUG : Bool) (adc : Nat → Nat)
    (hdry : ∀ i, i < 24 → ((read_sensor DEBUG adc (main DEBUG adc i)).1 : Int) > TARGET_MAX) :
    doses (main DEBUG adc 24).trace = 5 ∧
    (∀ i, i < 5 → doses (since (main DEBUG adc i) (main DEBUG adc (i + 1))) = 1 ∧
      (main DEBUG adc (i + 1)).check_count = (i : Int) + 1) ∧
    (∀ i, 5 ≤ i → i < 24 →
      (since (main DEBUG adc i) (main DEBUG adc (i + 1))).count (Event.call_watering 1) = 1 ∧
      relayWrites (since (main DEBUG adc i) (main DEBUG adc (i + 1))) = 0 ∧
      doses (since (main DEBUG adc i) (main DEBUG adc (i + 1))) = 0) ∧
    (∀ dose, Event.call_watering dose ∉
      since (sense_and_wait DEBUG adc (main DEBUG adc 23)) (main DEBUG adc 24)) ∧
    (main DEBUG adc 24).check_count = 0 ∧
    (main DEBUG adc 24).check_time = 0 := by
  have hdoses_it : ∀ i, i < 24 → doses (since (main DEBUG adc i) (main DEBUG adc (i + 1)))
      = if ((min i 5 : Nat) : Int) ≥ CHECK_MAX then 0 else 1 := by
    intro i hi
    obtain ⟨m, -, hs⟩ := dry_iteration DEBUG adc hdry i hi
    rw [hs]
    simp only [doses_append, doses_dbg, doses_waitEvents, doses_wateringTrace]
    rw [← List.singleton_append, doses_append, doses_dbg]
    simp [doses]
  have h24ct : (main DEBUG adc 24).check_time = 0 := by
    rw [(main_inv DEBUG adc 24).1]
    rfl
  have h24cc : (main DEBUG adc 24).check_count = 0 := by
    have hmain : main DEBUG adc 24
        = update_check DEBUG (sense_and_wait DEBUG adc (main DEBUG adc 23)) := rfl
    have h := h24ct
    rw [hmain, update_check_check_time] at h
    rw [hmain]
    by_cases hc : (sense_and_wait DEBUG adc (main DEBUG adc 23)).check_count < CHECK_MIN
    · rw [update_check_wrap_short DEBUG _ h hc]
    · rw [update_check_wrap_enough DEBUG _ h hc]
  refine ⟨?_, ?_, ?_, ?_, h24cc, h24ct⟩
  · obtain ⟨-, hd23⟩ := dry_run_counts DEBUG adc hdry 23 (le_refl _)
    obtain ⟨m, -, hs⟩ := dry_iteration DEBUG adc hdry 23 (by decide)
    have h := hdoses_it 23 (by decide)
    have hpre : ∃ X, (main DEBUG adc 24).trace = (main DEBUG adc 23).trace ++ X ∧
        since (main DEBUG adc 23) (main DEBUG adc 24) = X := by
      obtain ⟨X, hX⟩ := main_trace_succ DEBUG adc 23
      exact ⟨X, hX, since_append _ _ _ hX⟩
    obtain ⟨X, hX, hsX⟩ := hpre
    rw [hsX] at h
    rw [hX, doses_append, hd23, h]
    decide
  · intro i hi
    refine ⟨?_, ?_⟩
    · rw [hdoses_it i (by omega)]
      have hmin : min i 5 = i := by omega
      rw [hmin, if_neg]
      simp only [CHECK_MAX]
      omega
    · rw [(dry_run_counts DEBUG adc hdry (i + 1) (by omega)).1]
      have hmin : min (i + 1) 5 = i + 1 := by omega
      rw [hmin]
      push_cast
      rfl
  · intro i h5 hi
    obtain ⟨m, -, hs⟩ := dry_iteration DEBUG adc hdry i hi
    have hmin : min i 5 = 5 := by omega
    have hge : ((5 : Nat) : Int) ≥ CHECK_MAX := by decide
    refine ⟨?_, ?_, ?_⟩
    · rw [hs]
      have hdbgc : ∀ m, (dbg DEBUG m).count (Event.call_watering 1) = 0 := fun m =>
        List.count_eq_zero.mpr (call_not_mem_dbg DEBUG 1 m)
      have hwc : (waitEvents DEBUG adc ((main DEBUG adc i).reads + 1)).count
          (Event.call_watering 1) = 0 :=
        List.count_eq_zero.mpr (call_not_mem_waitEvents DEBUG adc 1 _)
      rw [← List.singleton_append]
      simp only [List.count_append, hdbgc, hwc, count_call_wateringTrace]
      simp
    · rw [hs, hmin, ← List.singleton_append]
      simp only [relayWrites_append, relayWrites_dbg, relayWrites_waitEvents,
        relayWrites_wateringTrace_refused DEBUG 1 _ hge]
      simp [relayWrites]
    · rw [hdoses_it i hi, hmin, if_pos hge]
  · intro dose
    obtain ⟨m, hs, -⟩ := dry_iteration DEBUG adc hdry 23 (by decide)
    rw [hs]
    exact call_not_mem_dbg DEBUG dose m

theorem all_dry_scenario_witness :
    (∀ i, i < 24 →
      ((read_sensor true (fun _ => 2401) (main true (fun _ => 2401) i)).1 : Int) > TARGET_MAX) ∧
    doses (main true (fun _ => 2401) 24).trace = 5 ∧
    (main true (fun _ => 2401) 24).check_count = 0 :=
  ⟨fun i _ => by
      rw [read_sensor_eq]
      show ((2401 % 65536 : Nat) : Int) > TARGET_MAX
      decide,
   (all_dry_scenario true (fun _ => 2401)
      (fun i _ => by
        rw [read_sensor_eq]
        show ((2401 % 65536 : Nat) : Int) > TARGET_MAX
        decide)).1,
   (all_dry_scenario true (fun _ => 2401)
      (fun i _ => by
        rw [read_sensor_eq]
        show ((2401 % 65536 : Nat) : Int) > TARGET_MAX
        decide)).2.2.2.2.1⟩

/-! ## The relay outside `watering` -/

theorem relayAfter_append (lvl : Bool) (a b : List Event) :
    relayAfter lvl (a ++ b) = relayAfter (relayAfter lvl a) b := by
  simp [relayAfter]

theorem closedOutsideHold_append (lvl : Bool) (a b : List Event) :
    closedOutsideHold lvl (a ++ b)
      = (closedOutsideHold lvl a && closedOutsideHold (relayAfter lvl a) b) := by
  induction a generalizing lvl with
  | nil => simp [closedOutsideHold, relayAfter]
  | cons e a ih =>
    show ((!lvl || duringHold e) && closedOutsideHold (relayStep lvl e) (a ++ b)) = _
    rw [ih]
    simp [closedOutsideHold, relayAfter, Bool.and_assoc]

/-- A trace without relay-on write, replayed from a closed relay, keeps it closed. -/
theorem quiet_of_doses_zero (tr : List Event) (h : doses tr = 0) :
    closedOutsideHold false tr = true ∧ relayAfter false tr = false := by
  induction tr with
  | nil => simp [closedOutsideHold, relayAfter]
  | cons e es ih =>
    have hne : e ≠ Event.gpio_put RELAY_PIN true := by
      intro he
      rw [he] at h
      simp [doses] at h
    have hes : doses es = 0 := by
      unfold doses at h ⊢
      rw [List.count_cons] at h
      omega
    have hstep : relayStep false e = false := by
      cases e with
      | gpio_put pin value =>
        by_cases hp : pin = RELAY_PIN
        · cases value
          · simp [relayStep, hp]
          · exact absurd (by rw [hp]) hne
        · simp [relayStep, hp]
      | _ => rfl
    have ih := ih hes
    constructor
    · simp [closedOutsideHold, hstep, ih.1]
    · show relayAfter (relayStep false e) es = false
      rw [hstep]
      exact ih.2

theorem quiet_append (a b : List Event)
    (ha : closedOutsideHold false a = true ∧ relayAfter false a = false)
    (hb : closedOutsideHold false b = true ∧ relayAfter false b = false) :
    closedOutsideHold false (a ++ b) = true ∧ relayAfter false (a ++ b) = false := by
  rw [closedOutsideHold_append, relayAfter_append, ha.1, ha.2, hb.1, hb.2]
  exact ⟨rfl, rfl⟩

theorem hold_blinkTrace (n : Nat) :
    closedOutsideHold true (blinkTrace n) = true ∧ relayAfter true (blinkTrace n) = true := by
  induction n with
  | zero => simp [blinkTrace, closedOutsideHold, relayAfter]
  | succ n ih =>
    rw [blinkTrace, closedOutsideHold_append, relayAfter_append]
    have h4 : closedOutsideHold true
          [Event.gpio_put LED_PIN true, Event.sleep_ms 250,
           Event.gpio_put LED_PIN false, Event.sleep_ms 250] = true ∧
        relayAfter true
          [Event.gpio_put LED_PIN true, Event.sleep_ms 250,
           Event.gpio_put LED_PIN false, Event.sleep_ms 250] = true := by
      decide
    rw [h4.1, h4.2, ih.1, ih.2]
    exact ⟨rfl, rfl⟩

theorem quiet_wateringTrace (DEBUG : Bool) (dose count : Int) :
    closedOutsideHold false (wateringTrace DEBUG dose count) = true ∧
    relayAfter false (wateringTrace DEBUG dose count) = false := by
  by_cases h : count ≥ CHECK_MAX
  · apply quiet_of_doses_zero
    rw [doses_wateringTrace, if_pos h]
  · have hpre : closedOutsideHold false
          (Event.call_watering dose :: dbg DEBUG (Msg.start_watering dose)) = true ∧
        relayAfter false (Event.call_watering dose :: dbg DEBUG (Msg.start_watering dose))
          = false := by
      apply quiet_of_doses_zero
      rw [← List.singleton_append, doses_append, doses_dbg]
      simp [doses]
    have hstop : closedOutsideHold true (dbg DEBUG Msg.stop_watering) = true ∧
        relayAfter true (dbg DEBUG Msg.stop_watering) = true := by
      cases DEBUG <;> decide
    have hon : closedOutsideHold false [Event.gpio_put RELAY_PIN true] = true ∧
        relayAfter false [Event.gpio_put RELAY_PIN true] = true := by decide
    have hoff : closedOutsideHold true
          [Event.gpio_put RELAY_PIN false, Event.gpio_put LED_PIN true] = true ∧
        relayAfter true [Event.gpio_put RELAY_PIN false, Event.gpio_put LED_PIN true]
          = false := by decide
    have hb := hold_blinkTrace (wrapInt (2 * wrapInt (WATERING_TIME * dose))).toNat
    rw [wateringTrace, if_neg h, holdTrace]
    simp only [closedOutsideHold_append, relayAfter_append, hpre.1, hpre.2, hon.1, hon.2,
      hb.1, hb.2, hstop.1, hstop.2, hoff.1, hoff.2]
    simp

theorem sense_and_wait_quiet (DEBUG : Bool) (adc : Nat → Nat) (s : State) :
    ∃ X, (sense_and_wait DEBUG adc s).trace = s.trace ++ X ∧
      closedOutsideHold false X = true ∧ relayAfter false X = false := by
  have hread : closedOutsideHold false (Event.adc_read (adc s.reads % 65536)
        :: dbg DEBUG (Msg.dryness (adc s.reads % 65536))) = true ∧
      relayAfter false (Event.adc_read (adc s.reads % 65536)
        :: dbg DEBUG (Msg.dryness (adc s.reads % 65536))) = false := by
    apply quiet_of_doses_zero
    rw [← List.singleton_append, doses_append, doses_dbg]
    simp [doses]
  have hwait := quiet_of_doses_zero _ (doses_waitEvents DEBUG adc (s.reads + 1))
  by_cases h : ((read_sensor DEBUG adc s).1 : Int) ≤ TARGET_MAX
  · refine ⟨_, by rw [sense_and_wait_wet DEBUG adc s h], ?_⟩
    have hled : closedOutsideHold false [Event.gpio_put LED_PIN false] = true ∧
        relayAfter false [Event.gpio_put LED_PIN false] = false := by decide
    exact quiet_append _ _ (quiet_append _ _ hread hled) hwait
  · have hq := quiet_append _ _
      (quiet_append _ _ hread (quiet_wateringTrace DEBUG 1 s.check_count)) hwait
    have hw := sense_and_wait_dry DEBUG adc s (not_le.mp h)
    refine ⟨_, ?_, hq⟩
    rw [hw]
    split <;> rfl

theorem update_check_quiet (DEBUG : Bool) (s : State) :
    ∃ Y, (update_check DEBUG s).trace = s.trace ++ Y ∧
      closedOutsideHold false Y = true ∧ relayAfter false Y = false := by
  by_cases hz : Int.tmod (wrapInt (s.check_time + 1)) CHECK_PERIOD = 0
  · by_cases hc : s.check_count < CHECK_MIN
    · refine ⟨_, by rw [update_check_wrap_short DEBUG s hz hc], ?_⟩
      exact quiet_append _ _
        (quiet_append _ _ (quiet_of_doses_zero _ (doses_dbg DEBUG _))
          (quiet_wateringTrace DEBUG _ _))
        (quiet_of_doses_zero _ (doses_dbg DEBUG _))
    · exact ⟨_, by rw [update_check_wrap_enough DEBUG s hz hc],
        quiet_of_doses_zero _ (doses_dbg DEBUG _)⟩
  · exact ⟨_, by rw [update_check_nowrap DEBUG s hz],
      quiet_of_doses_zero _ (doses_dbg DEBUG _)⟩

theorem main_quiet (DEBUG : Bool) (adc : Nat → Nat) (n : Nat) :
    closedOutsideHold false (main DEBUG adc n).trace = true ∧
    relayAfter false (main DEBUG adc n).trace = false := by
  induction n with
  | zero =>
    rw [main_zero]
    exact quiet_of_doses_zero _ (doses_startupEvents DEBUG adc 0)
  | succ n ih =>
    obtain ⟨X, hX, hqX⟩ := sense_and_wait_quiet DEBUG adc (main DEBUG adc n)
    obtain ⟨Y, hY, hqY⟩ := update_check_quiet DEBUG (sense_and_wait DEBUG adc (main DEBUG adc n))
    rw [main_succ, hY, hX]
    exact quiet_append _ _ (quiet_append _ _ ih hqX) hqY

theorem main_trace_extends (DEBUG : Bool) (adc : Nat → Nat) (n : Nat) :
    ∃ Z, (main DEBUG adc n).trace = (main DEBUG adc 0).trace ++ Z := by
  induction n with
  | zero => exact ⟨[], by simp⟩
  | succ n ih =>
    obtain ⟨Z, hZ⟩ := ih
    obtain ⟨X, hX⟩ := main_trace_succ DEBUG adc n
    exact ⟨Z ++ X, by rw [hX, hZ, List.append_assoc]⟩

/-- C11: in `main`, after any number `n` of loop iterations: the trace
starts with events that do not write the relay pin, followed by the write of
0 to it, so the first relay write is 0 and precedes every write of 1; the
relay is low at the start of iteration `n + 1`, after the sensor reading,
after the decision step (whether `watering` was called or not), throughout
`wait`, which does not write the relay pin, and after `update_check` returns;
and replaying the whole trace from a low relay, every event met while the
relay is high is one that `watering` performs between switching it on and
off, the relay being low at the end. -/
theorem relay_closed_outside_watering (DEBUG : Bool) (adc : Nat → Nat) (n : Nat) :
    (∃ pre post, (main DEBUG adc n).trace = pre ++ Event.gpio_put RELAY_PIN false :: post ∧
      relayWrites pre = 0) ∧
    (main DEBUG adc n).relay = false ∧
    (read_sensor DEBUG adc (main DEBUG adc n)).2.relay = false ∧
    (decision DEBUG (read_sensor DEBUG adc (main DEBUG adc n)).1
      (read_sensor DEBUG adc (main DEBUG adc n)).2).relay = false ∧
    relayWrites (since
      (decision DEBUG (read_sensor DEBUG adc (main DEBUG adc n)).1
        (read_sensor DEBUG adc (main DEBUG adc n)).2)
      (sense_and_wait DEBUG adc (main DEBUG adc n))) = 0 ∧
    (sense_and_wait DEBUG adc (main DEBUG adc n)).relay = false ∧
    (main DEBUG adc (n + 1)).relay = false ∧
    closedOutsideHold false (main DEBUG adc n).trace = true ∧
    relayAfter false (main DEBUG adc n).trace = false := by
  have hrel := (main_inv DEBUG adc n).2.2.2.1
  have hrel1 := (main_inv DEBUG adc (n + 1)).2.2.2.1
  have hurel := (before_check_inv DEBUG adc n).2.2.2.1
  obtain ⟨hq1, hq2⟩ := main_quiet DEBUG adc n
  have hr2 : (read_sensor DEBUG adc (main DEBUG adc n)).2.relay = false := by
    rw [read_sensor_eq]
    exact hrel
  refine ⟨?_, hrel, hr2, ?_, ?_, hurel, hrel1, hq1, hq2⟩
  · obtain ⟨Z, hZ⟩ := main_trace_extends DEBUG adc n
    refine ⟨[Event.stdio_init_all, Event.gpio_init LED_PIN, Event.gpio_set_dir LED_PIN true]
        ++ blinkTrace 2 ++ [Event.gpio_init RELAY_PIN, Event.gpio_set_dir RELAY_PIN true],
      [Event.adc_init, Event.adc_gpio_init HUMIDITY_PIN, Event.adc_select_input HUMIDITY_ADC]
        ++ waitEvents DEBUG adc 0 ++ Z, ?_, ?_⟩
    · rw [hZ, main_zero]
      simp [startupEvents]
    · simp only [relayWrites_append, relayWrites_blinkTrace]
      simp [relayWrites]
  · generalize read_sensor DEBUG adc (main DEBUG adc n) = r at hr2 ⊢
    unfold decision
    split
    · rw [watering_eq]
      split
      · exact hr2
      · rfl
    · simp [gpio_put, emit, LED_PIN, RELAY_PIN, hr2]
  · have hs : sense_and_wait DEBUG adc (main DEBUG adc n)
        = wait DEBUG adc DELAY (decision DEBUG (read_sensor DEBUG adc (main DEBUG adc n)).1
            (read_sensor DEBUG adc (main DEBUG adc n)).2) := rfl
    rw [hs]
    generalize decision DEBUG (read_sensor DEBUG adc (main DEBUG adc n)).1
      (read_sensor DEBUG adc (main DEBUG adc n)).2 = d
    rw [since_append d _ (waitEvents DEBUG adc d.reads) (by rw [wait_eq])]
    exact relayWrites_waitEvents DEBUG adc d.reads

/-! ## The two builds -/

theorem control_append (a b : List Event) : control (a ++ b) = control a ++ control b := by
  simp [control]

theorem control_dbg (DEBUG : Bool) (m : Msg) : control (dbg DEBUG m) = [] := by
  cases DEBUG <;> simp [dbg, control]

theorem control_waitTrace (DEBUG : Bool) (adc : Nat → Nat) (r n : Nat) :
    control (waitTrace DEBUG adc r n) = [] := by
  induction n generalizing r with
  | zero => simp [waitTrace, control]
  | succ n ih =>
    simp only [waitTrace, control_append, control_dbg, ih]
    simp [control]

theorem control_waitEvents (DEBUG : Bool) (adc : Nat → Nat) (r : Nat) :
    control (waitEvents DEBUG adc r) = [] := by
  cases DEBUG
  · simp [waitEvents, control]
  · show control (waitTrace true adc r 360) = []
    rw [control_waitTrace]

theorem control_wateringTrace (DEBUG : Bool) (dose count : Int) :
    control (wateringTrace DEBUG dose count) = control (wateringTrace false dose count) := by
  unfold wateringTrace holdTrace
  split
  · rw [← List.singleton_append, ← List.singleton_append (l := dbg false _)]
    simp only [control_append, control_dbg]
  · rw [← List.singleton_append, ← List.singleton_append (l := dbg false _)]
    simp only [control_append, control_dbg]

theorem elapsed_wateringTrace (DEBUG : Bool) (dose count : Int) :
    elapsed (wateringTrace DEBUG dose count) = elapsed (wateringTrace false dose count) := by
  unfold wateringTrace holdTrace
  split
  · rw [← List.singleton_append, ← List.singleton_append (l := dbg false _)]
    simp only [elapsed_append, elapsed_dbg]
  · rw [← List.singleton_append, ← List.singleton_append (l := dbg false _)]
    simp only [elapsed_append, elapsed_dbg]

theorem relaySeq_control (tr : List Event) : relaySeq (control tr) = relaySeq tr := by
  induction tr with
  | nil => rfl
  | cons e es ih =>
    unfold relaySeq control at ih ⊢
    cases e <;> simp [List.filter_cons, ih]

theorem obs_eq_iff (s t : State) :
    obs s = obs t ↔
      s.check_time = t.check_time ∧ s.check_count = t.check_count ∧ s.relay = t.relay ∧
      s.led = t.led ∧ control s.trace = control t.trace ∧ elapsed s.trace = elapsed t.trace := by
  simp [obs]

theorem obs_read_sensor (DEBUG : Bool) (adc : Nat → Nat) (s : State) :
    obs (read_sensor DEBUG adc s).2 = obs s := by
  rw [read_sensor_eq, obs_eq_iff]
  refine ⟨rfl, rfl, rfl, rfl, ?_, ?_⟩
  · show control (s.trace ++ _) = _
    rw [← List.singleton_append, control_append, control_append, control_dbg]
    simp [control]
  · show elapsed (s.trace ++ _) = _
    rw [← List.singleton_append, elapsed_append, elapsed_append, elapsed_dbg]
    simp [elapsed]

theorem obs_wait_congr (D1 D2 : Bool) (adc1 adc2 : Nat → Nat) (d1 d2 : Int) (s1 s2 : State)
    (h : obs s1 = obs s2) : obs (wait D1 adc1 d1 s1) = obs (wait D2 adc2 d2 s2) := by
  rw [obs_eq_iff] at h ⊢
  obtain ⟨h1, h2, h3, h4, h5, h6⟩ := h
  rw [wait_eq, wait_eq]
  refine ⟨h1, h2, h3, h4, ?_, ?_⟩
  · show control (s1.trace ++ _) = control (s2.trace ++ _)
    rw [control_append, control_append, control_waitEvents, control_waitEvents, h5]
  · show elapsed (s1.trace ++ _) = elapsed (s2.trace ++ _)
    rw [elapsed_append, elapsed_append, elapsed_waitEvents, elapsed_waitEvents, h6]

theorem obs_watering_congr (D1 D2 : Bool) (dose : Int) (s1 s2 : State)
    (h : obs s1 = obs s2) : obs (watering D1 dose s1) = obs (watering D2 dose s2) := by
  rw [obs_eq_iff] at h ⊢
  obtain ⟨h1, h2, h3, h4, h5, h6⟩ := h
  have hc : control (s1.trace ++ wateringTrace D1 dose s1.check_count)
      = control (s2.trace ++ wateringTrace D2 dose s2.check_count) := by
    rw [control_append, control_append, control_wateringTrace D1, control_wateringTrace D2,
      h5, h2]
  have he : elapsed (s1.trace ++ wateringTrace D1 dose s1.check_count)
      = elapsed (s2.trace ++ wateringTrace D2 dose s2.check_count) := by
    rw [elapsed_append, elapsed_append, elapsed_wateringTrace D1, elapsed_wateringTrace D2,
      h6, h2]
  rw [watering_eq, watering_eq]
  by_cases hge : s1.check_count ≥ CHECK_MAX
  · rw [if_pos hge, if_pos (h2 ▸ hge)]
    exact ⟨h1, h2, h3, h4, hc, he⟩
  · rw [if_neg hge, if_neg (h2 ▸ hge)]
    exact ⟨h1, by show wrapInt _ = wrapInt _; rw [h2], rfl, rfl, hc, he⟩

theorem obs_decision_congr (D1 D2 : Bool) (d : Nat) (s1 s2 : State)
    (h : obs s1 = obs s2) : obs (decision D1 d s1) = obs (decision D2 d s2) := by
  unfold decision
  split
  · exact obs_watering_congr D1 D2 1 s1 s2 h
  · rw [obs_eq_iff] at h ⊢
    obtain ⟨h1, h2, h3, h4, h5, h6⟩ := h
    simp [gpio_put, emit, LED_PIN, RELAY_PIN, control_append, elapsed_append, h1, h2, h3, h5, h6]

theorem obs_update_check_congr (D1 D2 : Bool) (s1 s2 : State)
    (h : obs s1 = obs s2) : obs (update_check D1 s1) = obs (update_check D2 s2) := by
  rw [obs_eq_iff] at h ⊢
  obtain ⟨h1, h2, h3, h4, h5, h6⟩ := h
  by_cases hz : Int.tmod (wrapInt (s1.check_time + 1)) CHECK_PERIOD = 0
  · have hz2 : Int.tmod (wrapInt (s2.check_time + 1)) CHECK_PERIOD = 0 := h1 ▸ hz
    by_cases hc : s1.check_count < CHECK_MIN
    · rw [update_check_wrap_short D1 s1 hz hc, update_check_wrap_short D2 s2 hz2 (h2 ▸ hc)]
      refine ⟨rfl, rfl, rfl, rfl, ?_, ?_⟩
      · show control (s1.trace ++ _) = control (s2.trace ++ _)
        simp only [control_append, control_dbg, control_wateringTrace D1,
          control_wateringTrace D2, h5, h2]
      · show elapsed (s1.trace ++ _) = elapsed (s2.trace ++ _)
        simp only [elapsed_append, elapsed_dbg, elapsed_wateringTrace D1,
          elapsed_wateringTrace D2, h6, h2]
    · rw [update_check_wrap_enough D1 s1 hz hc, update_check_wrap_enough D2 s2 hz2 (h2 ▸ hc)]
      refine ⟨rfl, rfl, h3, h4, ?_, ?_⟩
      · show control (s1.trace ++ _) = control (s2.trace ++ _)
        simp only [control_append, control_dbg, h5]
      · show elapsed (s1.trace ++ _) = elapsed (s2.trace ++ _)
        simp only [elapsed_append, elapsed_dbg, h6]
  · have hz2 : Int.tmod (wrapInt (s2.check_time + 1)) CHECK_PERIOD ≠ 0 := h1 ▸ hz
    rw [update_check_nowrap D1 s1 hz, update_check_nowrap D2 s2 hz2]
    refine ⟨by show Int.tmod _ _ = Int.tmod _ _; rw [h1], h2, h3, h4, ?_, ?_⟩
    · show control (s1.trace ++ _) = control (s2.trace ++ _)
      simp only [control_append, control_dbg, h5]
    · show elapsed (s1.trace ++ _) = elapsed (s2.trace ++ _)
      simp only [elapsed_append, elapsed_dbg, h6]

theorem obs_loop_body_congr (D1 D2 : Bool) (adc1 adc2 : Nat → Nat) (s1 s2 : State)
    (h : obs s1 = obs s2)
    (hd : (read_sensor D1 adc1 s1).1 = (read_sensor D2 adc2 s2).1) :
    obs (loop_body D1 adc1 s1) = obs (loop_body D2 adc2 s2) := by
  unfold loop_body
  simp only []
  apply obs_update_check_congr
  apply obs_wait_congr
  rw [hd]
  apply obs_decision_congr
  rw [obs_read_sensor, obs_read_sensor]
  exact h

theorem obs_main_zero (D1 D2 : Bool) (adc1 adc2 : Nat → Nat) :
    obs (main D1 adc1 0) = obs (main D2 adc2 0) := by
  rw [main_zero, main_zero, obs_eq_iff]
  refine ⟨rfl, rfl, rfl, rfl, ?_, ?_⟩
  · show control (startupEvents D1 adc1 0) = control (startupEvents D2 adc2 0)
    simp only [startupEvents, control_append, control_waitEvents]
  · show elapsed (startupEvents D1 adc1 0) = elapsed (startupEvents D2 adc2 0)
    simp only [startupEvents, elapsed_append, elapsed_waitEvents]

theorem obs_main_congr (D1 D2 : Bool) (adc1 adc2 : Nat → Nat) (n : Nat)
    (hsame : ∀ i, i < n →
      (read_sensor D1 adc1 (main D1 adc1 i)).1 = (read_sensor D2 adc2 (main D2 adc2 i)).1) :
    obs (main D1 adc1 n) = obs (main D2 adc2 n) := by
  induction n with
  | zero => exact obs_main_zero D1 D2 adc1 adc2
  | succ n ih =>
    have h := ih (fun i hi => hsame i (by omega))
    show obs (loop_body D1 adc1 (main D1 adc1 n)) = obs (loop_body D2 adc2 (main D2 adc2 n))
    exact obs_loop_body_congr D1 D2 adc1 adc2 _ _ h (hsame n (by omega))

/-- C18: let the `DEBUG` build run with sensor oracle `adcD` and the other
build with `adcN`, such that the reading taken at each of the first `n`
decisions is the same in both runs.  Then after `n` loop iterations both runs
have the same `check_time`, `check_count`, relay level and LED level, the same
sequence of relay writes, the same sequence of pin writes and `watering`
calls, and have slept the same total time. -/
theorem debug_equivalence (adcD adcN : Nat → Nat) (n : Nat)
    (hsame : ∀ i, i < n →
      (read_sensor true adcD (main true adcD i)).1
        = (read_sensor false adcN (main false adcN i)).1) :
    (main true adcD n).check_time = (main false adcN n).check_time ∧
    (main true adcD n).check_count = (main false adcN n).check_count ∧
    (main true adcD n).relay = (main false adcN n).relay ∧
    (main true adcD n).led = (main false adcN n).led ∧
    relaySeq (main true adcD n).trace = relaySeq (main false adcN n).trace ∧
    control (main true adcD n).trace = control (main false adcN n).trace ∧
    elapsed (main true adcD n).trace = elapsed (main false adcN n).trace := by
  have h := obs_main_congr true false adcD adcN n hsame
  rw [obs_eq_iff] at h
  obtain ⟨h1, h2, h3, h4, h5, h6⟩ := h
  refine ⟨h1, h2, h3, h4, ?_, h5, h6⟩
  rw [← relaySeq_control, h5, relaySeq_control]

theorem debug_equivalence_witness :
    (∀ i, i < 30 →
      (read_sensor true (fun _ => 3000) (main true (fun _ => 3000) i)).1
        = (read_sensor false (fun _ => 3000) (main false (fun _ => 3000) i)).1) ∧
    (main true (fun _ => 3000) 30).check_count = (main false (fun _ => 3000) 30).check_count ∧
    relaySeq (main true (fun _ => 3000) 30).trace
      = relaySeq (main false (fun _ => 3000) 30).trace :=
  ⟨fun i _ => by rw [read_sensor_eq, read_sensor_eq],
   (debug_equivalence (fun _ => 3000) (fun _ => 3000) 30
      (fun i _ => by rw [read_sensor_eq, read_sensor_eq])).2.1,
   (debug_equivalence (fun _ => 3000) (fun _ => 3000) 30
      (fun i _ => by rw [read_sensor_eq, read_sensor_eq])).2.2.2.2.1⟩

/-! ## Actuator safety -/

/-- C3: `watering(dose)` returns with the relay output closed, for every
dose and in both builds.  On the delivering path (`check_count < CHECK_MAX`)
the last relay write is the write of 0, whatever the state on entry.  The
refused path writes no pin and returns the relay at the level it had on
entry, and `watering` is only ever entered with the relay closed: it is
closed at the call in the decision step of every loop iteration and at the
forced call in `update_check`, so at both call sites of `main`, for every
sensor oracle and every number of iterations run before, the call returns
with the relay closed on either path. -/
theorem watering_closes_relay (DEBUG : Bool) (adc : Nat → Nat) (n : Nat) (dose : Int)
    (s : State) :
    (s.check_count < CHECK_MAX → (watering DEBUG dose s).relay = false) ∧
    (s.check_count ≥ CHECK_MAX →
      (watering DEBUG dose s).relay = s.relay ∧
      relayWrites (since s (watering DEBUG dose s)) = 0) ∧
    (s.relay = false → (watering DEBUG dose s).relay = false) ∧
    ((read_sensor DEBUG adc (main DEBUG adc n)).2.relay = false ∧
      (watering DEBUG dose (read_sensor DEBUG adc (main DEBUG adc n)).2).relay = false) ∧
    ((printdbg DEBUG
        (Msg.not_enough
          (wrapInt (CHECK_MIN - (sense_and_wait DEBUG adc (main DEBUG adc n)).check_count)))
        { sense_and_wait DEBUG adc (main DEBUG adc n) with
          check_time := Int.tmod
            (wrapInt ((sense_and_wait DEBUG adc (main DEBUG adc n)).check_time + 1))
            CHECK_PERIOD }).relay = false ∧
      (watering DEBUG dose
        (printdbg DEBUG
          (Msg.not_enough
            (wrapInt (CHECK_MIN - (sense_and_wait DEBUG adc (main DEBUG adc n)).check_count)))
          { sense_and_wait DEBUG adc (main DEBUG adc n) with
            check_time := Int.tmod
              (wrapInt ((sense_and_wait DEBUG adc (main DEBUG adc n)).check_time + 1))
              CHECK_PERIOD })).relay = false) := by
  have hclosed : ∀ t : State, t.relay = false → (watering DEBUG dose t).relay = false := by
    intro t ht
    rw [watering_eq]
    split
    · exact ht
    · rfl
  have hsite1 : (read_sensor DEBUG adc (main DEBUG adc n)).2.relay = false := by
    rw [read_sensor_eq]
    exact (main_inv DEBUG adc n).2.2.2.1
  have hsite2 : (printdbg DEBUG
        (Msg.not_enough
          (wrapInt (CHECK_MIN - (sense_and_wait DEBUG adc (main DEBUG adc n)).check_count)))
        { sense_and_wait DEBUG adc (main DEBUG adc n) with
          check_time := Int.tmod
            (wrapInt ((sense_and_wait DEBUG adc (main DEBUG adc n)).check_time + 1))
            CHECK_PERIOD }).relay = false := by
    rw [printdbg_eq]
    exact (before_check_inv DEBUG adc n).2.2.2.1
  refine ⟨?_, ?_, hclosed s, ⟨hsite1, hclosed _ hsite1⟩, ⟨hsite2, hclosed _ hsite2⟩⟩
  · intro hlt
    rw [watering_eq, if_neg (not_le.mpr hlt)]
  · intro hge
    constructor
    · rw [watering_eq, if_pos hge]
    · rw [since_append s _ (wateringTrace DEBUG dose s.check_count)
        (by rw [watering_eq, if_pos hge])]
      exact relayWrites_wateringTrace_refused DEBUG dose s.check_count hge

theorem watering_closes_relay_witness :
    ({ initial with check_count := 5 } : State).relay = false ∧
    ({ initial with check_count := 5 } : State).check_count ≥ CHECK_MAX ∧
    (watering true 1 { initial with check_count := 5 }).relay = false ∧
    initial.check_count < CHECK_MAX ∧
    (watering true 1 initial).relay = false :=
  ⟨by decide, by decide,
   (watering_closes_relay true (fun _ => 3000) 7 1 { initial with check_count := 5 }).2.2.1
     (by decide),
   by decide,
   (watering_closes_relay true (fun _ => 3000) 7 1 initial).1 (by decide)⟩

end Water
